import Mathlib

/-!
Verification development for the GPU graph-compiler core
(src/plugins/intel_gpu/src/graph/program.cpp).

The program graph is embedded shallowly: nodes live in an arena keyed by a
natural-number handle (the model of a C++ pointer), the id-map
(program::nodes_map) maps primitive ids to handles, and every structural
operation of the program class is translated into a pure function on the
whole program state.  Machine integers of the source are modelled by Nat/Int
(none of the translated code relies on overflow).  Functions of classes whose
implementation is not part of the analysed sources (layout_optimizer,
data_type_traits, the sliding-window calculators, program_node helpers such
as is_input) are modelled from the specification and marked as such in their
doc comments.
-/

namespace GpuProg

/-- Association-list lookup keyed by decidable equality; models std::map::find
followed by a dereference (first matching entry wins; keys of the modelled
maps are unique). -/
def lookupKV {κ ν : Type} [DecidableEq κ] : List (κ × ν) → κ → Option ν
  | [], _ => none
  | e :: r, k => if e.1 = k then some e.2 else lookupKV r k

/-- Replace the value stored under a key, leaving the list unchanged when the
key is absent; models an assignment through std::map::at. -/
def setKV {κ ν : Type} [DecidableEq κ] : List (κ × ν) → κ → ν → List (κ × ν)
  | [], _, _ => []
  | e :: r, k, v => if e.1 = k then (k, v) :: r else e :: setKV r k v

/-- Apply a function to the value stored under a key (no-op when absent);
models an in-place mutation of a mapped value. -/
def updKV {κ ν : Type} [DecidableEq κ] : List (κ × ν) → κ → (ν → ν) → List (κ × ν)
  | [], _, _ => []
  | e :: r, k, f => if e.1 = k then (e.1, f e.2) :: r else e :: updKV r k f

/-- Remove every entry stored under a key; models std::map::erase. -/
def eraseKV {κ ν : Type} [DecidableEq κ] (m : List (κ × ν)) (k : κ) : List (κ × ν) :=
  m.filter (fun e => e.1 ≠ k)

theorem lookupKV_setKV_self {κ ν : Type} [DecidableEq κ] (m : List (κ × ν)) (k : κ) (v : ν) :
    lookupKV (setKV m k v) k = (lookupKV m k).map (fun _ => v) := by
  induction m with
  | nil => rfl
  | cons e r ih =>
    by_cases h : e.1 = k
    · simp [setKV, lookupKV, h]
    · simp [setKV, lookupKV, h, ih]

theorem lookupKV_setKV_ne {κ ν : Type} [DecidableEq κ] (m : List (κ × ν)) (k k' : κ) (v : ν)
    (h : k ≠ k') : lookupKV (setKV m k v) k' = lookupKV m k' := by
  induction m with
  | nil => rfl
  | cons e r ih =>
    by_cases he : e.1 = k
    · subst he
      simp [setKV, lookupKV, h, ih]
    · simp only [setKV, if_neg he]
      by_cases he' : e.1 = k'
      · simp [lookupKV, he']
      · simp [lookupKV, he', ih]

theorem setKV_setKV_self {κ ν : Type} [DecidableEq κ] (m : List (κ × ν)) (k : κ) (v w : ν) :
    setKV (setKV m k v) k w = setKV m k w := by
  induction m with
  | nil => rfl
  | cons e r ih =>
    by_cases h : e.1 = k
    · simp [setKV, h]
    · simp [setKV, h, ih]

theorem setKV_comm {κ ν : Type} [DecidableEq κ] (m : List (κ × ν)) (k k' : κ) (v v' : ν)
    (h : k ≠ k') : setKV (setKV m k v) k' v' = setKV (setKV m k' v') k v := by
  induction m with
  | nil => rfl
  | cons e r ih =>
    by_cases he : e.1 = k
    · subst he
      simp [setKV, h, Ne.symm h, if_neg (Ne.symm h)]
    · by_cases he' : e.1 = k'
      · subst he'
        simp [setKV, h, if_neg h, if_neg he]
      · simp [setKV, he, he', ih]

theorem setKV_eq_self {κ ν : Type} [DecidableEq κ] (m : List (κ × ν)) (k : κ) (v : ν)
    (h : lookupKV m k = some v) : setKV m k v = m := by
  induction m with
  | nil => rfl
  | cons e r ih =>
    by_cases he : e.1 = k
    · obtain ⟨k0, v0⟩ := e
      simp only [lookupKV, if_pos he] at h
      simp only at he
      subst he
      simp [setKV, Option.some.injEq] at h ⊢
      exact h.symm
    · simp only [lookupKV, if_neg he] at h
      simp [setKV, he, ih h]

theorem lookupKV_updKV_self {κ ν : Type} [DecidableEq κ] (m : List (κ × ν)) (k : κ)
    (f : ν → ν) : lookupKV (updKV m k f) k = (lookupKV m k).map f := by
  induction m with
  | nil => rfl
  | cons e r ih =>
    by_cases h : e.1 = k
    · simp [updKV, lookupKV, h]
    · simp [updKV, lookupKV, h, ih]

theorem lookupKV_updKV_ne {κ ν : Type} [DecidableEq κ] (m : List (κ × ν)) (k k' : κ)
    (f : ν → ν) (h : k ≠ k') : lookupKV (updKV m k f) k' = lookupKV m k' := by
  induction m with
  | nil => rfl
  | cons e r ih =>
    by_cases he : e.1 = k
    · subst he
      simp [updKV, lookupKV, h, ih]
    · simp only [updKV, if_neg he]
      by_cases he' : e.1 = k'
      · simp [lookupKV, he']
      · simp [lookupKV, he', ih]

theorem updKV_updKV_self {κ ν : Type} [DecidableEq κ] (m : List (κ × ν)) (k : κ)
    (f g : ν → ν) : updKV (updKV m k f) k g = updKV m k (fun v => g (f v)) := by
  induction m with
  | nil => rfl
  | cons e r ih =>
    by_cases h : e.1 = k
    · simp [updKV, h]
    · simp [updKV, h, ih]

theorem updKV_comm {κ ν : Type} [DecidableEq κ] (m : List (κ × ν)) (k k' : κ)
    (f g : ν → ν) (h : k ≠ k') : updKV (updKV m k f) k' g = updKV (updKV m k' g) k f := by
  induction m with
  | nil => rfl
  | cons e r ih =>
    by_cases he : e.1 = k
    · subst he
      simp [updKV, h, if_neg (Ne.symm h)]
    · by_cases he' : e.1 = k'
      · subst he'
        simp [updKV, if_neg h, if_neg he]
      · simp [updKV, he, he', ih]

theorem updKV_id {κ ν : Type} [DecidableEq κ] (m : List (κ × ν)) (k : κ) (f : ν → ν)
    (h : ∀ v, lookupKV m k = some v → f v = v) : updKV m k f = m := by
  induction m with
  | nil => rfl
  | cons e r ih =>
    by_cases he : e.1 = k
    · obtain ⟨k0, v0⟩ := e
      simp only at he
      subst he
      have hv : f v0 = v0 := h v0 (by simp [lookupKV])
      simp [updKV, hv]
    · simp only [updKV, if_neg he]
      rw [ih]
      intro v hv
      apply h
      simpa [lookupKV, he] using hv

theorem eraseKV_cons {κ ν : Type} [DecidableEq κ] (e : κ × ν) (r : List (κ × ν)) (k : κ) :
    eraseKV (e :: r) k = if e.1 = k then eraseKV r k else e :: eraseKV r k := by
  by_cases h : e.1 = k <;> simp [eraseKV, List.filter_cons, h]

theorem lookupKV_eraseKV_self {κ ν : Type} [DecidableEq κ] (m : List (κ × ν)) (k : κ) :
    lookupKV (eraseKV m k) k = none := by
  induction m with
  | nil => rfl
  | cons e r ih =>
    rw [eraseKV_cons]
    by_cases h : e.1 = k
    · simpa [h] using ih
    · simpa [lookupKV, h] using ih

theorem lookupKV_eraseKV_ne {κ ν : Type} [DecidableEq κ] (m : List (κ × ν)) (k k' : κ)
    (h : k ≠ k') : lookupKV (eraseKV m k) k' = lookupKV m k' := by
  induction m with
  | nil => rfl
  | cons e r ih =>
    rw [eraseKV_cons]
    by_cases he : e.1 = k
    · have hne : ¬ e.1 = k' := by rw [he]; exact h
      simp [he, lookupKV, hne, ih, h]
    · by_cases he' : e.1 = k'
      · simp [he, lookupKV, he', Ne.symm h]
      · simp [he, lookupKV, he', ih]

/-- One program_node of the graph.  Handles (Nat) play the role of the C++
node pointers stored in the dependency and user lists; descId is the id of
the wrapped primitive descriptor (node.desc, mutated by rename and
swap_names).  memDeps models the memory-restriction set filled by the
memory-dependency passes. -/
structure NodeData where
  descId : String
  deps : List Nat
  users : List Nat
  output : Bool
  constant : Bool
  dataFlow : Bool
  userMark : Bool
  validLayout : Bool
  layoutTag : Nat
  memDeps : List String
deriving DecidableEq, Repr

/-- The program state touched by the structural operations of program.cpp:
the arena of live nodes (handle to node), nodes_map (primitive id to the
owning handle), the inputs/outputs lists, the processing order, the plain
optimized_out id list and the is_debug_build flag. -/
structure PState where
  arena : List (Nat × NodeData)
  idmap : List (String × Nat)
  inputs : List Nat
  outputs : List Nat
  porder : List Nat
  optimizedOut : List String
  debugBuild : Bool
deriving DecidableEq, Repr

/-- Dereference a node handle (a C++ pointer dereference). -/
def getN (s : PState) (h : Nat) : Option NodeData := lookupKV s.arena h

/-- Mutate the node behind a handle in place. -/
def updN (s : PState) (h : Nat) (f : NodeData → NodeData) : PState :=
  { s with arena := updKV s.arena h f }

@[simp] theorem updN_idmap (s : PState) (h : Nat) (f : NodeData → NodeData) :
    (updN s h f).idmap = s.idmap := rfl

@[simp] theorem updN_inputs (s : PState) (h : Nat) (f : NodeData → NodeData) :
    (updN s h f).inputs = s.inputs := rfl

@[simp] theorem updN_outputs (s : PState) (h : Nat) (f : NodeData → NodeData) :
    (updN s h f).outputs = s.outputs := rfl

@[simp] theorem updN_porder (s : PState) (h : Nat) (f : NodeData → NodeData) :
    (updN s h f).porder = s.porder := rfl

@[simp] theorem updN_optimizedOut (s : PState) (h : Nat) (f : NodeData → NodeData) :
    (updN s h f).optimizedOut = s.optimizedOut := rfl

@[simp] theorem updN_debugBuild (s : PState) (h : Nat) (f : NodeData → NodeData) :
    (updN s h f).debugBuild = s.debugBuild := rfl

theorem getN_updN_self (s : PState) (h : Nat) (f : NodeData → NodeData) :
    getN (updN s h f) h = (getN s h).map f := lookupKV_updKV_self s.arena h f

theorem getN_updN_ne (s : PState) (h h' : Nat) (f : NodeData → NodeData) (hne : h ≠ h') :
    getN (updN s h f) h' = getN s h' := lookupKV_updKV_ne s.arena h h' f hne

/-- program::add_connection (program.cpp:863): appends next to prev.users and
prev to next.dependencies.  The source performs no check at all, in
particular no cycle check, and cannot fail. -/
def add_connection (s : PState) (prev next : Nat) : PState :=
  updN (updN s prev (fun p => { p with users := p.users ++ [next] }))
    next (fun n => { n with deps := n.deps ++ [prev] })

/-- program::remove_connection (program.cpp:868): prev.users.remove(next) and
erase-remove of prev from next.dependencies; both remove every occurrence. -/
def remove_connection (s : PState) (prev next : Nat) : PState :=
  updN (updN s prev (fun p => { p with users := p.users.filter (fun u => u ≠ next) }))
    next (fun n => { n with deps := n.deps.filter (fun d => d ≠ prev) })

/-- Whether a node counts as a graph input.  Modelled from the spec:
program_node::is_input is not part of the analysed sources; the spec states
that every id in the inputs list has zero dependencies, so a node is an
input iff its dependency list is empty. -/
def node_is_input (nd : NodeData) : Bool := nd.deps.isEmpty

/-- program::remove_if_dangling (program.cpp:986).  Returns false when the
node still has users or dependencies.  Otherwise it returns true, and only
when the node is not an output (or the build is a debug build) it also
erases the node from the inputs list, the processing order and the id-map
(the destruction event) and appends its id to optimized_out. -/
def remove_if_dangling (s : PState) (h : Nat) : PState × Bool :=
  match getN s h with
  | none => (s, true)
  | some nd =>
    if ¬ nd.users.isEmpty then (s, false)
    else if ¬ nd.deps.isEmpty then (s, false)
    else if ¬ nd.output || s.debugBuild then
      ({ s with
          inputs := if node_is_input nd then s.inputs.filter (fun x => x ≠ h) else s.inputs,
          porder := if h ∈ s.porder then s.porder.erase h else s.porder,
          optimizedOut := s.optimizedOut ++ [nd.descId],
          idmap := eraseKV s.idmap nd.descId,
          arena := eraseKV s.arena h }, true)
    else (s, true)

/-- Bounded reachability along dependency edges: node b is reachable from
node a through at least one edge within the given fuel.  Used to express
acyclicity of the dependency graph. -/
def reachesWithin (s : PState) : Nat → Nat → Nat → Bool
  | 0, _, _ => false
  | fuel + 1, a, b =>
    match getN s a with
    | none => false
    | some nd => nd.deps.any (fun d => d = b || reachesWithin s fuel d b)

/-- A dependency cycle exists: some node reaches itself through at least one
dependency edge. -/
def hasCycle (s : PState) : Bool :=
  s.arena.any (fun e => reachesWithin s s.arena.length e.1 e.1)

/-- Replace the first occurrence of a value in a list (the for-loop with
break over a user's dependency vector in program::replace). -/
def replaceFirst : List Nat → Nat → Nat → List Nat
  | [], _, _ => []
  | x :: r, a, b => if x = a then b :: r else x :: replaceFirst r a b

/-- Insert a value right before the first occurrence of another value
(nodes_ordering::insert with the iterator of the anchor node); when the
anchor is absent the value is appended at the end. -/
def insertBefore : List Nat → Nat → Nat → List Nat
  | [], _, n => [n]
  | x :: r, b, n => if x = b then n :: x :: r else x :: insertBefore r b n

/-- program::rename (program.cpp:887): fails when the new id is taken or the
node is an output; silently succeeds when the node id is not in the id-map;
otherwise emplaces the node under the new id, erases the old binding and
rewrites the descriptor id.  The second component carries the error message
of the thrown exception, with the untouched state. -/
def rename (s : PState) (h : Nat) (newId : String) : PState × Option String :=
  match getN s h with
  | none => (s, some "node handle not in arena")
  | some nd =>
    if (lookupKV s.idmap newId).isSome then
      (s, some "Trying to rename program_node but node with this id already exists")
    else if nd.output then
      (s, some "Trying to rename an output node")
    else
      match lookupKV s.idmap nd.descId with
      | none => (s, none)
      | some p =>
        (updN { s with idmap := eraseKV (s.idmap ++ [(newId, p)]) nd.descId } h
          (fun n => { n with descId := newId }), none)

/-- program::swap_names (program.cpp:904): swaps the mapped values of the two
ids in nodes_map and swaps the two descriptor ids; edges are untouched.  A
missing handle or binding models the std::map::at exception and leaves the
state unchanged. -/
def swap_names (s : PState) (h1 h2 : Nat) : PState :=
  match getN s h1, getN s h2 with
  | some n1, some n2 =>
    match lookupKV s.idmap n1.descId, lookupKV s.idmap n2.descId with
    | some p1, some p2 =>
      let m1 := setKV (setKV s.idmap n1.descId p2) n2.descId p1
      updN (updN { s with idmap := m1 } h1 (fun n => { n with descId := n2.descId }))
        h2 (fun n => { n with descId := n1.descId })
    | _, _ => s
  | _, _ => s

/-- The while-loop of program::replace that moves the dependencies of the old
node one by one: take the front dependency, add_connection(dep, new_node),
remove_connection(dep, old_node).  Each round removes every occurrence of the
front dependency from the old node, so the loop runs at most as many rounds
as the list has elements; the fuel is instantiated with that length. -/
def replace_move_deps : Nat → PState → Nat → Nat → PState
  | 0, s, _, _ => s
  | fuel + 1, s, oldH, newH =>
    match getN s oldH with
    | none => s
    | some od =>
      match od.deps with
      | [] => s
      | d :: _ =>
        replace_move_deps fuel (remove_connection (add_connection s d newH) d oldH) oldH newH

/-- The user-moving loop of program::replace: for every user of the old node,
push the user onto new_node.users and replace the first occurrence of the
old node in that user's dependency vector by the new node. -/
def replace_move_users (oldH newH : Nat) : PState → List Nat → PState
  | s, [] => s
  | s, u :: r =>
    replace_move_users oldH newH
      (updN (updN s newH (fun n => { n with users := n.users ++ [u] }))
        u (fun un => { un with deps := replaceFirst un.deps oldH newH })) r

/-- Output-flag handling for the old node in program::replace
(program.cpp:957-961): when the old node was an output, clear its flag and
erase it from the outputs list. -/
def replace_strip_output (oldH : Nat) (wasOutput : Bool) (s : PState) : PState :=
  if wasOutput then
    { updN s oldH (fun n => { n with output := false }) with
        outputs := s.outputs.filter (fun x => x ≠ oldH) }
  else s

/-- Inputs-list fix-up of program::replace (program.cpp:962-965): push the
new node when it is an input, remove the old node when it is one
(program_node::is_input modelled from the spec as an empty dependency
list). -/
def replace_fix_inputs (oldH newH : Nat) (s : PState) : PState :=
  let s6 : PState :=
    if (match getN s newH with | some n => node_is_input n | none => false) then
      { s with inputs := s.inputs ++ [newH] }
    else s
  if (match getN s6 oldH with | some n => node_is_input n | none => false) then
    { s6 with inputs := s6.inputs.filter (fun x => x ≠ oldH) }
  else s6

/-- Processing-order handling of program::replace (program.cpp:973-975):
insert the new node before the old one, then erase the old one when
present. -/
def replace_fix_porder (oldH newH : Nat) (s : PState) : PState :=
  let s9 : PState := { s with porder := insertBefore s.porder oldH newH }
  if oldH ∈ s9.porder then { s9 with porder := s9.porder.erase oldH } else s9

/-- The nodes_map.erase(id) of program::replace (program.cpp:976): the old
id leaves the id-map and the old node is destroyed. -/
def replace_erase_old (oldH : Nat) (oldId : String) (s : PState) : PState :=
  { s with idmap := eraseKV s.idmap oldId, arena := eraseKV s.arena oldH }

/-- Output-flag restoration on the new node after the rename in
program::replace (program.cpp:980-983). -/
def replace_restore_output (newH : Nat) (wasOutput : Bool) (s : PState) : PState :=
  if wasOutput then
    { updN s newH (fun n => { n with output := true }) with
        outputs := s.outputs ++ [newH] }
  else s

/-- The successful mutation chain of program::replace up to (and excluding)
the rename: copy layout and validity, move dependencies, move users, clear
old.users, strip the old output flag, fix the inputs list, copy the
constant/data_flow/user_mark flags, fix the processing order, erase the old
node. -/
def replace_pre (s : PState) (oldH newH : Nat) (od : NodeData) : PState :=
  replace_erase_old oldH od.descId
    (replace_fix_porder oldH newH
      (updN
        (replace_fix_inputs oldH newH
          (replace_strip_output oldH od.output
            (updN
              (replace_move_users oldH newH
                (replace_move_deps od.deps.length
                  (updN s newH (fun n =>
                    { n with layoutTag := od.layoutTag, validLayout := od.validLayout }))
                  oldH newH)
                od.users)
              oldH (fun n => { n with users := [] }))))
        newH (fun n =>
          { n with constant := od.constant, dataFlow := od.dataFlow,
                   userMark := od.userMark })))

/-- program::replace (program.cpp:923).  Throws (second component carries the
message) when the replacement node has dependencies or users, or is an
output, leaving the state untouched; otherwise runs the mutation chain, the
rename to the old id and the output restoration. -/
def replace (s : PState) (oldH newH : Nat) : PState × Option String :=
  match getN s oldH, getN s newH with
  | some od, some nn =>
    if ¬ nn.deps.isEmpty || ¬ nn.users.isEmpty then
      (s, some "Node which is about to replace other node should be detached")
    else if nn.output then
      (s, some "Replacement node should not be marked as an output since it is impossible to rename such node")
    else
      match rename (replace_pre s oldH newH od) newH od.descId with
      | (s12, none) => (replace_restore_output newH od.output s12, none)
      | (_, some e) => (s, some e)
  | _, _ => (s, some "node handle not in arena")

/-- The scale-shift-opt state of a quantize peer consulted by the input-drop
decision of program::fuse_nodes.  The getters (quantize_node::get_need_clamp
and friends) live outside the analysed sources; their results are carried as
plain fields. -/
structure QFlags where
  perTensorOutputRange : Bool
  outputLoVal : Int
  outputHiVal : Int
  needClamp : Bool
  perTensorInputScale : Bool
  perTensorInputShift : Bool
  perTensorOutputScale : Bool
  perTensorOutputShift : Bool
  needPreShift : Bool
  needPostScale : Bool
  needPostShift : Bool
deriving DecidableEq, Repr

/-- out_range_usage of program::fuse_nodes (program.cpp:1113): the per-tensor
output range is in use when the flag is set and the low bound is strictly
below the high bound. -/
def out_range_usage (q : QFlags) : Bool :=
  q.perTensorOutputRange && decide (q.outputLoVal < q.outputHiVal)

/-- can_drop_input of program::fuse_nodes (program.cpp:1112-1126), the
disjunction accumulated through the can_drop_input |= lines, as a function
of the dependency index. -/
def can_drop_input (q : QFlags) (i : Nat) : Bool :=
  ((decide (i = 1) || decide (i = 2)) &&
      (out_range_usage q || (!out_range_usage q && !q.needClamp)))
    || decide (i = 3) || decide (i = 4)
    || (decide (i = 5) && q.perTensorInputScale)
    || (decide (i = 6) && (!q.needPreShift || q.perTensorInputShift))
    || (decide (i = 7) && (!q.needPostScale || q.perTensorOutputScale))
    || (decide (i = 8) && (!q.needPostShift || q.perTensorOutputShift))

/-- The drop condition as the claim states it: index 1 or 2 when the
per-tensor output range is in use or clamping is not needed; 3 and 4 always;
5 iff per-tensor input scale; 6 iff per-tensor input shift or no pre-shift;
7 iff per-tensor output scale or no post-scale; 8 iff per-tensor output
shift or no post-shift. -/
def claim_drop_input (q : QFlags) (i : Nat) : Bool :=
  ((decide (i = 1) || decide (i = 2)) && (out_range_usage q || !q.needClamp))
    || decide (i = 3) || decide (i = 4)
    || (decide (i = 5) && q.perTensorInputScale)
    || (decide (i = 6) && (q.perTensorInputShift || !q.needPreShift))
    || (decide (i = 7) && (q.perTensorOutputScale || !q.needPostScale))
    || (decide (i = 8) && (q.perTensorOutputShift || !q.needPostShift))

/-- One round of the dependency-merging loop of program::fuse_nodes
(program.cpp:1101-1135) for peer dependency number i: skip the host (id
comparison as in the source), skip a droppable input of a scale-shift-opt
quantize peer, and otherwise push the dependency onto the host's dependency
list and the host onto the dependency's user list. -/
def fuse_dep_step (hostH : Nat) (hostId : String) (peerIsQuantize ssOpt : Bool)
    (q : QFlags) (s : PState) (i : Nat) (depH : Nat) : PState :=
  match getN s depH with
  | none => s
  | some dn =>
    if dn.descId = hostId then s
    else if peerIsQuantize && ssOpt && can_drop_input q i then s
    else
      updN (updN s hostH (fun hn => { hn with deps := hn.deps ++ [depH] }))
        depH (fun d => { d with users := d.users ++ [hostH] })

/-- The indexed for-loop over the peer's dependencies in program::fuse_nodes. -/
def fuse_deps_loop (hostH : Nat) (hostId : String) (peerIsQuantize ssOpt : Bool)
    (q : QFlags) : PState → Nat → List Nat → PState
  | s, _, [] => s
  | s, i, d :: r =>
    fuse_deps_loop hostH hostId peerIsQuantize ssOpt q
      (fuse_dep_step hostH hostId peerIsQuantize ssOpt q s i d) (i + 1) r

/-- Dependency-merging step of program::fuse_nodes over the whole peer
dependency list, starting at index 0. -/
def fuse_add_deps (s : PState) (hostH : Nat) (hostId : String) (peerDeps : List Nat)
    (peerIsQuantize ssOpt : Bool) (q : QFlags) : PState :=
  fuse_deps_loop hostH hostId peerIsQuantize ssOpt q s 0 peerDeps

/-- The peer dependencies the claim says survive the fusion: everything that
is neither the host itself nor dropped by the claim's table. -/
def kept_deps (hostH : Nat) (q : QFlags) : Nat → List Nat → List Nat
  | _, [] => []
  | i, d :: r =>
    if d = hostH || claim_drop_input q i then kept_deps hostH q (i + 1) r
    else d :: kept_deps hostH q (i + 1) r

/-- The data types of cldnn tensors that the analysed code distinguishes. -/
inductive DT where
  | f32
  | f16
  | i64
  | i32
  | u8
  | i8
  | bin
deriving DecidableEq, Repr

/-- Primitive kinds named by the analysed code (the is_type and type_id
checks of program.cpp); every kind that none of the checks mentions is
collapsed into other. -/
inductive PKind where
  | convolution
  | deconvolution
  | activation
  | pooling
  | eltwise
  | permute
  | reshape
  | detection_output
  | binary_convolution
  | quantize
  | custom_gpu_primitive
  | concatenation
  | fully_connected
  | reorder
  | input_layout
  | softmax
  | prior_box
  | border
  | resample
  | crop
  | depth_to_space
  | shuffle_channels
  | mvn
  | arg_max_min
  | dft
  | mutable_data
  | reduce
  | strided_slice
  | region_yolo
  | normalize
  | gather
  | scatter_nd_update
  | broadcast
  | ctc_loss
  | non_max_suppression
  | roi_align
  | adaptive_pooling
  | bucketize
  | roll
  | eye
  | generate_proposals
  | reverse
  | reorg_yolo
  | scatter_elements_update
  | experimental_detectron_detection_output
  | generic_layer
  | gemm
  | proposal
  | roi_pooling
  | data
  | other
deriving DecidableEq, Repr

/-- Modelled from the spec: data_type_traits::max_type over the dtype
lattice f32 > f16 > i64 > i32 > u8 > i8 > bin (section 4.11); the
implementation is outside the analysed sources.  The theorems about
program::get_inference_precision quantify over the max function, this
concrete table only feeds witnesses and counterexamples. -/
def data_type_max (a b : DT) : DT :=
  let rank : DT → Nat
    | DT.f32 => 6
    | DT.f16 => 5
    | DT.i64 => 4
    | DT.i32 => 3
    | DT.u8 => 2
    | DT.i8 => 1
    | DT.bin => 0
  if rank a < rank b then b else a

/-- Modelled from the spec: data_type_traits::is_quantized holds of the
8-bit integer types (section 4.11); implementation outside the analysed
sources. -/
def data_type_is_quantized (d : DT) : Bool :=
  decide (d = DT.u8) || decide (d = DT.i8)

/-- The view of one node taken by program::get_inference_precision: its
kind, for every dependency the validity flag and data type of that
dependency's output layout, its own validity flag and its own output data
type.  A node with no dependencies is an input (program_node::is_input
modelled from the spec). -/
structure PrecNode where
  kind : PKind
  deps : List (Bool × DT)
  valid : Bool
  outDT : DT
deriving DecidableEq, Repr

/-- The per-kind rules of program::get_inference_precision applied to the
full dependency data-type list (reorder, quantize, eltwise,
convolution-like, default). -/
def per_kind_precision (maxT : DT → DT → DT) (isQ : DT → Bool) (n : PrecNode) :
    Except String DT :=
  match n.deps.map (fun d => d.2) with
  | [] => Except.ok DT.f32
  | d0 :: ds =>
    match n.kind with
    | PKind.reorder => Except.ok (maxT d0 n.outDT)
    | PKind.quantize =>
      Except.ok (if isQ n.outDT then n.outDT else maxT d0 n.outDT)
    | PKind.eltwise => Except.ok (ds.foldl maxT d0)
    | PKind.convolution | PKind.deconvolution | PKind.fully_connected | PKind.gemm =>
      match ds with
      | [] => Except.error "Invalid inputs count in node during stage info collection"
      | d1 :: _ => Except.ok (if isQ d0 && isQ d1 then d0 else maxT d0 d1)
    | _ => Except.ok d0

/-- program::get_inference_precision (program.cpp:1210).  An input node
returns its own output data type at once; otherwise the data types of the
dependencies with a valid output layout are collected, f32 is returned when
some dependency layout or the node's own layout is invalid, and the
per-kind rules run on the collected types. -/
def get_inference_precision (maxT : DT → DT → DT) (isQ : DT → Bool) (n : PrecNode) :
    Except String DT :=
  if n.deps.isEmpty then Except.ok n.outDT
  else
    let input_dts := (n.deps.filter (fun d => d.1)).map (fun d => d.2)
    if input_dts.length ≠ n.deps.length ∨ ¬ n.valid then Except.ok DT.f32
    else
      match input_dts with
      | [] => Except.ok DT.f32
      | d0 :: ds =>
        match n.kind with
        | PKind.reorder => Except.ok (maxT d0 n.outDT)
        | PKind.quantize =>
          Except.ok (if isQ n.outDT then n.outDT else maxT d0 n.outDT)
        | PKind.eltwise => Except.ok (ds.foldl maxT d0)
        | PKind.convolution | PKind.deconvolution | PKind.fully_connected | PKind.gemm =>
          match ds with
          | [] => Except.error "Invalid inputs count in node during stage info collection"
          | d1 :: _ => Except.ok (if isQ d0 && isQ d1 then d0 else maxT d0 d1)
        | _ => Except.ok d0

/-- program::add_optimized_primitive_info (program.cpp:1320): in every
existing entry of the optimized log whose survivor list mentions the newly
optimized id, the first occurrence of that id is erased and the new survivor
ids are appended at the end; finally the new pair is appended to the log. -/
def add_optimized_primitive_info (optimized : List (String × List String))
    (pid : String) (repl : List String) : List (String × List String) :=
  (optimized.map (fun e => if pid ∈ e.2 then (e.1, e.2.erase pid ++ repl) else e))
    ++ [(pid, repl)]

/-- The optimized log is closed under removal: no survivor list mentions an
id that is itself recorded as optimized out (a key of the log). -/
def optimizedClosed (l : List (String × List String)) : Prop :=
  ∀ e ∈ l, ∀ x ∈ e.2, ∀ e' ∈ l, x ≠ e'.1

instance (l : List (String × List String)) : Decidable (optimizedClosed l) := by
  unfold optimizedClosed
  infer_instance

/-- The engine configuration bit consulted by
program::prepare_memory_dependencies. -/
structure EngineConfiguration where
  use_memory_pool : Bool
deriving DecidableEq, Repr

/-- program::prepare_memory_dependencies (program.cpp:735): returns at once
when the engine configuration disables the memory pool, otherwise applies
the three memory-dependency sub-passes in order.  The sub-passes live in
separate sources and are taken as arbitrary state transformers. -/
def prepare_memory_dependencies (cfg : EngineConfiguration)
    (basic_pass skipped_branch_pass oooq_pass : PState → PState) (s : PState) : PState :=
  if !cfg.use_memory_pool then s
  else oooq_pass (skipped_branch_pass (basic_pass s))

/-- The view of one processing-order node taken by
program::set_layout_optimizer_attributes: its kind, the data-flow flag, the
data type of its output layout (for the int8-quantized test), the mvn
special-case inputs, and the two layout_optimizer oracles consulted for
deconvolutions (is_format_optimized for b_fs_zyx_fsv16 and
is_format_supported for b_fs_yx_fsv16 — layout_optimizer is outside the
analysed sources, so their per-node results are carried as fields). -/
structure LNode where
  kind : PKind
  dataFlow : Bool
  outDtype : DT
  mvnInputDtype : DT
  mvnAcrossChannels : Bool
  deconvOptZyxFsv16 : Bool
  deconvSupYxFsv16 : Bool
deriving DecidableEq, Repr

/-- The kind test of the can_use_fsv16 conjunction
(program.cpp:1402-1453) with the data-flow conjunct stripped: the node kind
is one the b_fs_yx_fsv16 sweep tolerates.  The source lists the kinds as a
conjunction of type_id inequalities, with an mvn clause that is subsumed by
a later plain mvn inequality; the translation keeps every conjunct. -/
def fsv16_kind_compatible (n : LNode) : Bool :=
  !(!decide (n.kind = PKind.convolution) &&
    !decide (n.kind = PKind.deconvolution) &&
    !decide (n.kind = PKind.activation) &&
    !decide (n.kind = PKind.pooling) &&
    !decide (n.kind = PKind.eltwise) &&
    !decide (n.kind = PKind.permute) &&
    !decide (n.kind = PKind.reshape) &&
    !decide (n.kind = PKind.detection_output) &&
    !decide (n.kind = PKind.binary_convolution) &&
    !decide (n.kind = PKind.quantize) &&
    !decide (n.kind = PKind.custom_gpu_primitive) &&
    !decide (n.kind = PKind.concatenation) &&
    !decide (n.kind = PKind.fully_connected) &&
    !decide (n.kind = PKind.reorder) &&
    !decide (n.kind = PKind.input_layout) &&
    !decide (n.kind = PKind.softmax) &&
    !decide (n.kind = PKind.prior_box) &&
    !decide (n.kind = PKind.border) &&
    !decide (n.kind = PKind.resample) &&
    !decide (n.kind = PKind.crop) &&
    !decide (n.kind = PKind.depth_to_space) &&
    !decide (n.kind = PKind.shuffle_channels) &&
    (!decide (n.kind = PKind.mvn) ||
      (!decide (n.mvnInputDtype = DT.u8) && !decide (n.mvnInputDtype = DT.i8)) ||
      n.mvnAcrossChannels) &&
    !decide (n.kind = PKind.arg_max_min) &&
    !decide (n.kind = PKind.dft) &&
    !decide (n.kind = PKind.mutable_data) &&
    !decide (n.kind = PKind.reduce) &&
    !decide (n.kind = PKind.strided_slice) &&
    !decide (n.kind = PKind.region_yolo) &&
    !decide (n.kind = PKind.normalize) &&
    !decide (n.kind = PKind.mvn) &&
    !decide (n.kind = PKind.gather) &&
    !decide (n.kind = PKind.scatter_nd_update) &&
    !decide (n.kind = PKind.broadcast) &&
    !decide (n.kind = PKind.ctc_loss) &&
    !decide (n.kind = PKind.non_max_suppression) &&
    !decide (n.kind = PKind.roi_align) &&
    !decide (n.kind = PKind.adaptive_pooling) &&
    !decide (n.kind = PKind.bucketize) &&
    !decide (n.kind = PKind.roll) &&
    !decide (n.kind = PKind.prior_box) &&
    !decide (n.kind = PKind.resample) &&
    !decide (n.kind = PKind.eye) &&
    !decide (n.kind = PKind.generate_proposals) &&
    !decide (n.kind = PKind.reverse) &&
    !decide (n.kind = PKind.reorg_yolo) &&
    !decide (n.kind = PKind.scatter_elements_update) &&
    !decide (n.kind = PKind.experimental_detectron_detection_output))

/-- The accumulators of the set_layout_optimizer_attributes scan that feed
the b_fs_yx_fsv16 decision. -/
structure Fsv16Acc where
  can_use_fsv16 : Bool
  is_quantized_int8_model : Bool
  opt_deconv_layers_b_fs_zyx_fsv16 : Nat
  opt_deconv_layers_b_fs_yx_fsv16 : Nat
  total_crop_layers : Nat
deriving DecidableEq, Repr

/-- One node of the set_layout_optimizer_attributes scan
(program.cpp:1359-1499), restricted to the accumulators above: deconvolution
format counting (zyx first, yx only otherwise), the can_use_fsv16 veto for a
data-flow node of an unsupported kind, the int8-quantized-model detection on
quantize nodes with an 8-bit output, and crop counting. -/
def fsv16_scan_step (a : Fsv16Acc) (n : LNode) : Fsv16Acc :=
  let a :=
    if decide (n.kind = PKind.deconvolution) then
      if n.deconvOptZyxFsv16 then
        { a with opt_deconv_layers_b_fs_zyx_fsv16 := a.opt_deconv_layers_b_fs_zyx_fsv16 + 1 }
      else if n.deconvSupYxFsv16 then
        { a with opt_deconv_layers_b_fs_yx_fsv16 := a.opt_deconv_layers_b_fs_yx_fsv16 + 1 }
      else a
    else a
  let a :=
    if n.dataFlow && !fsv16_kind_compatible n then { a with can_use_fsv16 := false } else a
  let a :=
    if decide (n.kind = PKind.quantize) &&
        (decide (n.outDtype = DT.i8) || decide (n.outDtype = DT.u8)) then
      { a with is_quantized_int8_model := true }
    else a
  if decide (n.kind = PKind.crop) then
    { a with total_crop_layers := a.total_crop_layers + 1 }
  else a

/-- The whole scan, starting from the initial values of
set_layout_optimizer_attributes. -/
def fsv16_scan (nodes : List LNode) : Fsv16Acc :=
  nodes.foldl fsv16_scan_step
    { can_use_fsv16 := true, is_quantized_int8_model := false,
      opt_deconv_layers_b_fs_zyx_fsv16 := 0, opt_deconv_layers_b_fs_yx_fsv16 := 0,
      total_crop_layers := 0 }

/-- should_use_b_fs_yx_fsv16_conv (program.cpp:1512-1516).  total_conv is
lo.get_total_conv_count() and num16 is
lo.get_optimized_conv_count(b_fs_yx_fsv16); both counters belong to
layout_optimizer, which is outside the analysed sources, so they are taken
as parameters.  The float comparison num16 * cond_denom > 0.5f is modelled
with exact rational arithmetic. -/
def should_use_b_fs_yx_fsv16_conv (nodes : List LNode) (total_conv num16 : Nat) : Bool :=
  let acc := fsv16_scan nodes
  let cond_denom : ℚ := if 0 < total_conv then 1 / (total_conv : ℚ) else 1
  acc.is_quantized_int8_model ||
    (acc.can_use_fsv16 && decide (11 < total_conv) &&
      (decide ((num16 : ℚ) * cond_denom > 1 / 2) ||
        decide (1 ≤ acc.opt_deconv_layers_b_fs_yx_fsv16)) &&
      decide (acc.total_crop_layers < num16 * 2))

/-- The network attributes set by program::set_layout_optimizer_attributes,
restricted to the one under study; the attribute starts at 0 and is set to 1
exactly when the corresponding should_use flag holds
(program.cpp:1537-1538). -/
structure LayoutOptAttrs where
  b_fs_yx_fsv16_network : Bool
deriving DecidableEq, Repr

/-- program::set_layout_optimizer_attributes, restricted to the
b_fs_yx_fsv16_network attribute. -/
def set_layout_optimizer_attributes (nodes : List LNode) (total_conv num16 : Nat) :
    LayoutOptAttrs :=
  { b_fs_yx_fsv16_network := should_use_b_fs_yx_fsv16_conv nodes total_conv num16 }

/-- Ceiling division on integers. -/
def cdivInt (a b : Int) : Int := -(Int.fdiv (-a) b)

/-- Modelled from the spec: one spatial axis of
calc_sliding_window_output_range in mode all — standard floor division over
input extent, dilated filter, symmetric padding and stride, clamped at the
degenerate value 1 (section 4.1; sliding_window_utils.hpp is outside the
analysed sources).  Matches the boundary cases of section 8. -/
def swor_all_axis (inp flt pad st dil : Int) : Int :=
  max 1 (Int.fdiv (inp + 2 * pad - dil * (flt - 1) - 1) st + 1)

/-- Modelled from the spec: one spatial axis of
calc_sliding_window_output_range in mode exceed_once_data — ceiling
division, the last window may overrun once (section 4.1).  Matches the
pooling boundary case of section 8. -/
def swor_exceed_once_axis (inp flt pad st dil : Int) : Int :=
  max 1 (cdivInt (inp + 2 * pad - dil * (flt - 1) - 1) st + 1)

/-- Modelled from the spec: one spatial axis of
calc_sliding_window_needed_input_range — the input extent a transposed
convolution needs for a given output extent (section 4.1).  Matches the
deconvolution boundary case of section 8. -/
def swor_needed_input_axis (outp flt pad st dil : Int) : Int :=
  max 1 (cdivInt (outp + 2 * pad - dil * (flt - 1) - 1) st + 1)

/-- Apply an axis calculator to the three spatial axes. -/
def triMap (f : Int → Int → Int → Int → Int → Int)
    (inp flt pad st dil : Int × Int × Int) : Int × Int × Int :=
  (f inp.1 flt.1 pad.1 st.1 dil.1,
   f inp.2.1 flt.2.1 pad.2.1 st.2.1 dil.2.1,
   f inp.2.2 flt.2.2 pad.2.2 st.2.2 dil.2.2)

/-- The view of one processing-order node taken by
program::analyze_output_size_handling_need: kind, the with_output_size flag
of the descriptor, the declared output size, the current input and filter
spatial extents, padding, stride and dilation, and for pooling the raw size
list of the descriptor (reversed into spatial axes by the source). -/
structure OSNode where
  kind : PKind
  with_output_size : Bool
  output_size : Int × Int × Int
  input_size : Int × Int × Int
  filter_size : Int × Int × Int
  pad : Int × Int × Int
  stride : Int × Int × Int
  dilation : Int × Int × Int
  pool_size : List Int
deriving DecidableEq, Repr

/-- The pooling window tensor built by analyze_output_size_handling_need
(program.cpp:320-323): size.spatial[i] = prim->size[n-1-i], missing axes
default to 1. -/
def pool_filter_from_size (sz : List Int) : Int × Int × Int :=
  (sz.reverse.getD 0 1, sz.reverse.getD 1 1, sz.reverse.getD 2 1)

/-- The expected output range of one node as
program::analyze_output_size_handling_need computes it: mode all with the
descriptor's dilation for convolution and binary convolution, the
needed-input range with unit dilation for deconvolution, and mode
exceed_once_data with the reversed window and unit dilation for pooling. -/
def os_calc_output_range (n : OSNode) : Int × Int × Int :=
  match n.kind with
  | PKind.deconvolution =>
    triMap swor_needed_input_axis n.input_size n.filter_size n.pad n.stride (1, 1, 1)
  | PKind.pooling =>
    triMap swor_exceed_once_axis n.input_size (pool_filter_from_size n.pool_size)
      n.pad n.stride (1, 1, 1)
  | _ => triMap swor_all_axis n.input_size n.filter_size n.pad n.stride n.dilation

/-- Whether one node makes analyze_output_size_handling_need flag the
program: a convolution, deconvolution or pooling node with
with_output_size whose declared range disagrees with the computed one, or a
binary convolution (whose descriptor always declares an output size — the
source has no with_output_size guard on that branch) with a disagreeing
range. -/
def os_mismatch (n : OSNode) : Bool :=
  match n.kind with
  | PKind.convolution =>
    n.with_output_size && decide (n.output_size ≠ os_calc_output_range n)
  | PKind.binary_convolution => decide (n.output_size ≠ os_calc_output_range n)
  | PKind.deconvolution =>
    n.with_output_size && decide (n.output_size ≠ os_calc_output_range n)
  | PKind.pooling =>
    n.with_output_size && decide (n.output_size ≠ os_calc_output_range n)
  | _ => false

/-- program::analyze_output_size_handling_need (program.cpp:234): scans the
processing order and reports whether any convolution, binary-convolution,
deconvolution or pooling node disagrees with the sliding-window
calculators. -/
def analyze_output_size_handling_need (nodes : List OSNode) : Bool :=
  nodes.foldl (fun acc n => acc || os_mismatch n) false

/-- The empty program state. -/
def emptyState : PState :=
  { arena := [], idmap := [], inputs := [], outputs := [], porder := [],
    optimizedOut := [], debugBuild := false }

/-- A node that depends on node 2 (concrete graph used for the cycle
counterexample). -/
def cycNodeA : NodeData :=
  { descId := "a", deps := [2], users := [], output := false, constant := false,
    dataFlow := false, userMark := false, validLayout := false, layoutTag := 0,
    memDeps := [] }

/-- A node that node 1 depends on. -/
def cycNodeB : NodeData :=
  { descId := "b", deps := [], users := [1], output := false, constant := false,
    dataFlow := false, userMark := false, validLayout := false, layoutTag := 0,
    memDeps := [] }

/-- A two-node acyclic graph with the single dependency edge from node 1 to
node 2. -/
def cycState : PState :=
  { arena := [(1, cycNodeA), (2, cycNodeB)], idmap := [("a", 1), ("b", 2)],
    inputs := [2], outputs := [], porder := [2, 1], optimizedOut := [],
    debugBuild := false }

/-- A dangling output node (no users, no dependencies, output flag set). -/
def dangOutNode : NodeData :=
  { descId := "o", deps := [], users := [], output := true, constant := false,
    dataFlow := false, userMark := false, validLayout := false, layoutTag := 0,
    memDeps := [] }

/-- A release-build program holding only the dangling output node. -/
def dangOutState : PState :=
  { arena := [(1, dangOutNode)], idmap := [("o", 1)], inputs := [], outputs := [1],
    porder := [1], optimizedOut := [], debugBuild := false }

/-- A dangling non-output node. -/
def dangNode : NodeData :=
  { descId := "x", deps := [], users := [], output := false, constant := false,
    dataFlow := false, userMark := false, validLayout := false, layoutTag := 0,
    memDeps := [] }

/-- A release-build program holding only the dangling non-output node. -/
def dangState : PState :=
  { arena := [(1, dangNode)], idmap := [("x", 1)], inputs := [], outputs := [],
    porder := [1], optimizedOut := [], debugBuild := false }

theorem foldl_or_eq_any {α : Type} (p : α → Bool) (l : List α) (b : Bool) :
    l.foldl (fun acc n => acc || p n) b = (b || l.any p) := by
  induction l generalizing b with
  | nil => simp
  | cons x r ih => simp [List.any_cons, ih, Bool.or_assoc]

theorem length_filter_eq_length_iff {α : Type} (p : α → Bool) (l : List α) :
    (l.filter p).length = l.length ↔ ∀ x ∈ l, p x = true := by
  induction l with
  | nil => simp
  | cons x r ih =>
    by_cases hx : p x = true
    · simp [List.filter_cons, hx, ih]
    · simp only [List.filter_cons, hx, Bool.false_eq_true, if_false, List.length_cons]
      constructor
      · intro h
        have hle := List.length_filter_le p r
        omega
      · intro h
        exact absurd (h x (List.mem_cons_self x r)) hx

/-- C10: when the engine configuration disables the memory pool,
prepare_memory_dependencies returns without running any of the three
memory-dependency sub-passes (the conclusion holds for arbitrary sub-pass
behaviour), leaving every node — in particular its memory-restriction set —
and all other program state unchanged. -/
theorem prepare_memory_dependencies_disabled_noop
    (cfg : EngineConfiguration) (p1 p2 p3 : PState → PState) (s : PState)
    (hcfg : cfg.use_memory_pool = false) :
    prepare_memory_dependencies cfg p1 p2 p3 s = s ∧
    (∀ h : Nat, getN (prepare_memory_dependencies cfg p1 p2 p3 s) h = getN s h) := by
  constructor
  · simp [prepare_memory_dependencies, hcfg]
  · intro h
    simp [prepare_memory_dependencies, hcfg]

/-- Witness for C10 at the empty program with identity sub-passes. -/
theorem prepare_memory_dependencies_disabled_noop_witness :
    prepare_memory_dependencies { use_memory_pool := false } id id id emptyState = emptyState ∧
    (∀ h : Nat,
      getN (prepare_memory_dependencies { use_memory_pool := false } id id id emptyState) h =
        getN emptyState h) :=
  prepare_memory_dependencies_disabled_noop { use_memory_pool := false } id id id emptyState rfl

/-- C4 (amended): add_connection(u, v) unconditionally appends v to u.users
and u to v.dependencies and touches nothing else; the source performs no
cycle check and cannot fail. -/
theorem add_connection_spec (s : PState) (u v : Nat) (pu pv : NodeData)
    (hu : getN s u = some pu) (hv : getN s v = some pv) (huv : u ≠ v) :
    getN (add_connection s u v) u = some { pu with users := pu.users ++ [v] } ∧
    getN (add_connection s u v) v = some { pv with deps := pv.deps ++ [u] } ∧
    (∀ x : Nat, x ≠ u → x ≠ v → getN (add_connection s u v) x = getN s x) ∧
    (add_connection s u v).idmap = s.idmap ∧
    (add_connection s u v).porder = s.porder ∧
    (add_connection s u v).outputs = s.outputs ∧
    (add_connection s u v).optimizedOut = s.optimizedOut := by
  unfold add_connection
  refine ⟨?_, ?_, ?_, rfl, rfl, rfl, rfl⟩
  · rw [getN_updN_ne _ v u _ (Ne.symm huv), getN_updN_self, hu]
    rfl
  · rw [getN_updN_self, getN_updN_ne _ u v _ huv, hv]
    rfl
  · intro x hxu hxv
    rw [getN_updN_ne _ v x _ (Ne.symm hxv), getN_updN_ne _ u x _ (Ne.symm hxu)]

/-- Witness for the amended C4 on the concrete two-node graph. -/
theorem add_connection_spec_witness :
    getN (add_connection cycState 1 2) 1 = some { cycNodeA with users := [2] } ∧
    getN (add_connection cycState 1 2) 2 = some { cycNodeB with deps := [1] } := by
  have h := add_connection_spec cycState 1 2 cycNodeA cycNodeB (by rfl) (by rfl) (by decide)
  exact ⟨h.1, h.2.1⟩

/-- C4 counterexample: the graph already holds the dependency edge from node
1 to node 2; add_connection(1, 2) would close a cycle, yet the source adds
the edge anyway — afterwards the graph has a dependency cycle and both edge
lists were extended, so the call did not fail. -/
theorem add_connection_claim_counterexample :
    hasCycle cycState = false ∧
    hasCycle (add_connection cycState 1 2) = true ∧
    getN (add_connection cycState 1 2) 2 = some { cycNodeB with deps := [1] } := by decide

/-- C1 (amended): remove_if_dangling returns true iff the node has no users
and no dependencies.  The node is erased from the id-map and its id appended
exactly once to the optimized-out log only when additionally it is not an
output or the build is a debug build; a dangling output node of a release
build is reported removed while the whole state is left unchanged. -/
theorem remove_if_dangling_users_ne (s : PState) (h : Nat) (nd : NodeData)
    (hget : getN s h = some nd) (hU : ¬ nd.users = []) :
    remove_if_dangling s h = (s, false) := by
  simp [remove_if_dangling, hget, hU]

theorem remove_if_dangling_deps_ne (s : PState) (h : Nat) (nd : NodeData)
    (hget : getN s h = some nd) (hU : nd.users = []) (hD : ¬ nd.deps = []) :
    remove_if_dangling s h = (s, false) := by
  simp [remove_if_dangling, hget, hU, hD]

theorem remove_if_dangling_removed (s : PState) (h : Nat) (nd : NodeData)
    (hget : getN s h = some nd) (hU : nd.users = []) (hD : nd.deps = [])
    (hO : nd.output = false ∨ s.debugBuild = true) :
    remove_if_dangling s h =
      ({ s with
          inputs := if node_is_input nd then s.inputs.filter (fun x => x ≠ h) else s.inputs,
          porder := if h ∈ s.porder then s.porder.erase h else s.porder,
          optimizedOut := s.optimizedOut ++ [nd.descId],
          idmap := eraseKV s.idmap nd.descId,
          arena := eraseKV s.arena h }, true) := by
  rcases hO with hO | hO
  · simp [remove_if_dangling, hget, hU, hD, hO]
  · simp [remove_if_dangling, hget, hU, hD, hO]

theorem remove_if_dangling_kept (s : PState) (h : Nat) (nd : NodeData)
    (hget : getN s h = some nd) (hU : nd.users = []) (hD : nd.deps = [])
    (hOut : nd.output = true) (hDbg : s.debugBuild = false) :
    remove_if_dangling s h = (s, true) := by
  simp [remove_if_dangling, hget, hU, hD, hOut, hDbg]

theorem remove_if_dangling_spec (s : PState) (h : Nat) (nd : NodeData)
    (hget : getN s h = some nd) :
    ((remove_if_dangling s h).2 = true ↔ (nd.users = [] ∧ nd.deps = [])) ∧
    (nd.users = [] → nd.deps = [] → (nd.output = false ∨ s.debugBuild = true) →
      ((remove_if_dangling s h).1.idmap = eraseKV s.idmap nd.descId ∧
       (remove_if_dangling s h).1.optimizedOut = s.optimizedOut ++ [nd.descId] ∧
       getN (remove_if_dangling s h).1 h = none)) ∧
    (nd.users = [] → nd.deps = [] → nd.output = true → s.debugBuild = false →
      (remove_if_dangling s h).1 = s) := by
  by_cases hU : nd.users = []
  · by_cases hD : nd.deps = []
    · refine ⟨?_, ?_, ?_⟩
      · by_cases hO : nd.output = false ∨ s.debugBuild = true
        · rw [remove_if_dangling_removed s h nd hget hU hD hO]
          simp [hU, hD]
        · have hOut : nd.output = true := by
            rcases Bool.eq_false_or_eq_true nd.output with hh | hh
            · exact hh
            · exact absurd (Or.inl hh) hO
          have hDbg : s.debugBuild = false := by
            rcases Bool.eq_false_or_eq_true s.debugBuild with hh | hh
            · exact absurd (Or.inr hh) hO
            · exact hh
          rw [remove_if_dangling_kept s h nd hget hU hD hOut hDbg]
          simp [hU, hD]
      · intro _ _ hO
        rw [remove_if_dangling_removed s h nd hget hU hD hO]
        exact ⟨rfl, rfl, lookupKV_eraseKV_self s.arena h⟩
      · intro _ _ hOut hDbg
        rw [remove_if_dangling_kept s h nd hget hU hD hOut hDbg]
    · refine ⟨?_, ?_, ?_⟩
      · rw [remove_if_dangling_deps_ne s h nd hget hU hD]
        simp [hD]
      · intro _ hDe
        exact absurd hDe hD
      · intro _ hDe
        exact absurd hDe hD
  · refine ⟨?_, ?_, ?_⟩
    · rw [remove_if_dangling_users_ne s h nd hget hU]
      simp [hU]
    · intro hUe
      exact absurd hUe hU
    · intro hUe
      exact absurd hUe hU

/-- Witness for the amended C1: the dangling non-output node is removed, its
id logged once, and the call reports success. -/
theorem remove_if_dangling_spec_witness :
    (remove_if_dangling dangState 1).2 = true ∧
    (remove_if_dangling dangState 1).1.optimizedOut =
      dangState.optimizedOut ++ [dangNode.descId] ∧
    getN (remove_if_dangling dangState 1).1 1 = none := by
  have h := remove_if_dangling_spec dangState 1 dangNode (by rfl)
  exact ⟨h.1.mpr ⟨rfl, rfl⟩, (h.2.1 rfl rfl (Or.inl rfl)).2.1, (h.2.1 rfl rfl (Or.inl rfl)).2.2⟩

/-- C1 counterexample: a dangling output node of a release build.  The call
returns true (success) although the node is an output, and the program is
left unchanged — the node stays in the id-map and nothing is appended to the
optimized-out log, against the claim's success conditions. -/
theorem remove_if_dangling_claim_counterexample :
    (remove_if_dangling dangOutState 1).2 = true ∧
    (remove_if_dangling dangOutState 1).1 = dangOutState ∧
    dangOutNode.output = true ∧
    dangOutState.debugBuild = false := by decide

theorem filter_all_eq {α : Type} (p : α → Bool) (l : List α) (h : ∀ x ∈ l, p x = true) :
    l.filter p = l := by
  induction l with
  | nil => rfl
  | cons x r ih =>
    rw [List.filter_cons, if_pos (h x (List.mem_cons_self x r))]
    rw [ih (fun y hy => h y (List.mem_cons_of_mem x hy))]

/-- C9 (amended): add_optimized_primitive_info replaces, in every earlier
entry, the first occurrence of the newly optimized id by the new survivor
list; the closure invariant — no survivor list mentions a logged id — is
preserved provided it held before, no earlier survivor list mentions the new
id twice, the new id is not among its own survivors, and no new survivor is
already a key of the log. -/
theorem add_optimized_primitive_info_preserves_closed
    (l : List (String × List String)) (pid : String) (repl : List String)
    (hclosed : optimizedClosed l)
    (honce : ∀ e ∈ l, List.count pid e.2 ≤ 1)
    (hpid : pid ∉ repl)
    (hfresh : ∀ x ∈ repl, ∀ e ∈ l, x ≠ e.1) :
    optimizedClosed (add_optimized_primitive_info l pid repl) := by
  have hmem : ∀ a ∈ l, ∀ y ∈ (if pid ∈ a.2 then (a.1, a.2.erase pid ++ repl) else a).2,
      (y ∈ a.2 ∨ y ∈ repl) ∧ y ≠ pid := by
    intro a ha y hy
    by_cases hp : pid ∈ a.2
    · rw [if_pos hp] at hy
      rcases List.mem_append.mp hy with hy | hy
      · have hcount : List.count pid a.2 ≤ 1 := honce a ha
        have hzero : List.count pid (a.2.erase pid) = 0 := by
          rw [List.count_erase_self]
          omega
        have hnp : pid ∉ a.2.erase pid := by
          intro hc
          have := List.count_pos_iff.mpr hc
          omega
        exact ⟨Or.inl (List.mem_of_mem_erase hy), fun hxy => hnp (hxy ▸ hy)⟩
      · exact ⟨Or.inr hy, fun hxy => hpid (hxy ▸ hy)⟩
    · rw [if_neg hp] at hy
      exact ⟨Or.inl hy, fun hxy => hp (hxy ▸ hy)⟩
  intro e he x hx e' he'
  simp only [add_optimized_primitive_info, List.mem_append, List.mem_map,
    List.mem_singleton] at he he'
  have hkey : ∀ a : String × List String,
      (if pid ∈ a.2 then (a.1, a.2.erase pid ++ repl) else a).1 = a.1 := by
    intro a
    by_cases hp : pid ∈ a.2 <;> simp [hp]
  rcases he with ⟨e0, he0, rfl⟩ | rfl
  · have hx' := hmem e0 he0 x hx
    rcases he' with ⟨e0', he0', rfl⟩ | rfl
    · rw [hkey e0']
      rcases hx'.1 with hy | hy
      · exact hclosed e0 he0 x hy e0' he0'
      · exact hfresh x hy e0' he0'
    · exact hx'.2
  · rcases he' with ⟨e0', he0', rfl⟩ | rfl
    · rw [hkey e0']
      exact hfresh x hx e0' he0'
    · intro hxy
      apply hpid
      have hxp : x = pid := hxy
      rw [← hxp]
      exact hx

/-- Witness for the amended C9: fusing id b (one occurrence, fresh survivor)
into a closed log keeps the log closed. -/
theorem add_optimized_primitive_info_preserves_closed_witness :
    optimizedClosed (add_optimized_primitive_info [("a", ["h", "b"])] "b" ["h"]) :=
  add_optimized_primitive_info_preserves_closed [("a", ["h", "b"])] "b" ["h"]
    (by decide) (by decide) (by decide) (by decide)

/-- C9 counterexample: the log [(a, [h])] is closed; recording c as optimized
out with survivor list [a] — a survivor that is itself already logged —
leaves an entry whose survivor list mentions the logged id a, so the call
does not keep the log closed under removal. -/
theorem add_optimized_primitive_info_claim_counterexample :
    optimizedClosed [("a", ["h"])] ∧
    ¬ optimizedClosed (add_optimized_primitive_info [("a", ["h"])] "c" ["a"]) := by decide

/-- C8 (amended): for every node with at least one dependency,
get_inference_precision returns f32 whenever the node's own output layout is
invalid or some dependency's output layout is invalid, and the per-kind
precision rules run exactly when all those layouts are valid.  (An input
node — one with no dependencies — instead returns its own output data type
at once, even when its layout is invalid.)  The max-type and is-quantized
oracles of data_type_traits are quantified over. -/
theorem get_inference_precision_spec (maxT : DT → DT → DT) (isQ : DT → Bool)
    (n : PrecNode) (hdeps : n.deps ≠ []) :
    (((¬ ∀ d ∈ n.deps, d.1 = true) ∨ n.valid = false) →
        get_inference_precision maxT isQ n = Except.ok DT.f32) ∧
    ((∀ d ∈ n.deps, d.1 = true) → n.valid = true →
        get_inference_precision maxT isQ n = per_kind_precision maxT isQ n) := by
  have hne : n.deps.isEmpty = false := by
    cases hd : n.deps with
    | nil => exact absurd hd hdeps
    | cons a r => rfl
  constructor
  · intro hbad
    have hcond : ((n.deps.filter (fun d => d.1)).map (fun d => d.2)).length ≠ n.deps.length
        ∨ ¬ (n.valid = true) := by
      rcases hbad with hbad | hbad
      · left
        rw [List.length_map]
        intro heq
        exact hbad ((length_filter_eq_length_iff _ _).mp heq)
      · right
        simp [hbad]
    simp only [get_inference_precision, hne, Bool.false_eq_true, if_false]
    rw [if_pos hcond]
  · intro hall hvalid
    have hfilter : n.deps.filter (fun d => d.1) = n.deps := filter_all_eq _ _ hall
    simp only [get_inference_precision, per_kind_precision, hne, Bool.false_eq_true, if_false]
    rw [hfilter]
    simp [hvalid]

/-- An eltwise node with all dependency layouts valid, used as the witness
input of the amended C8. -/
def precEltwiseNode : PrecNode :=
  { kind := PKind.eltwise, deps := [(true, DT.f16), (true, DT.i8)], valid := true,
    outDT := DT.f16 }

/-- Witness for the amended C8: with every layout valid, the per-kind rule
runs and the eltwise maximum comes out. -/
theorem get_inference_precision_spec_witness :
    get_inference_precision data_type_max data_type_is_quantized precEltwiseNode =
      per_kind_precision data_type_max data_type_is_quantized precEltwiseNode ∧
    get_inference_precision data_type_max data_type_is_quantized precEltwiseNode =
      Except.ok DT.f16 := by
  have h := get_inference_precision_spec data_type_max data_type_is_quantized
    precEltwiseNode (by decide)
  refine ⟨h.2 (by decide) rfl, ?_⟩
  rw [h.2 (by decide) rfl]
  rfl

/-- C8 counterexample: an input node (no dependencies) whose own output
layout is invalid.  get_inference_precision returns the node's own declared
data type f16, not the f32 the claim requires for a node with an invalid
output layout. -/
theorem get_inference_precision_claim_counterexample :
    get_inference_precision data_type_max data_type_is_quantized
        { kind := PKind.input_layout, deps := [], valid := false, outDT := DT.f16 } =
      Except.ok DT.f16 ∧
    DT.f16 ≠ DT.f32 := ⟨rfl, by decide⟩

theorem os_mismatch_iff (n : OSNode) :
    os_mismatch n = true ↔
      ((n.kind = PKind.convolution ∧ n.with_output_size = true ∧
          n.output_size ≠
            triMap swor_all_axis n.input_size n.filter_size n.pad n.stride n.dilation) ∨
       (n.kind = PKind.binary_convolution ∧
          n.output_size ≠
            triMap swor_all_axis n.input_size n.filter_size n.pad n.stride n.dilation) ∨
       (n.kind = PKind.deconvolution ∧ n.with_output_size = true ∧
          n.output_size ≠
            triMap swor_needed_input_axis n.input_size n.filter_size n.pad n.stride
              (1, 1, 1)) ∨
       (n.kind = PKind.pooling ∧ n.with_output_size = true ∧
          n.output_size ≠
            triMap swor_exceed_once_axis n.input_size (pool_filter_from_size n.pool_size)
              n.pad n.stride (1, 1, 1))) := by
  cases hk : n.kind <;> simp [os_mismatch, os_calc_output_range, hk]

/-- C5: analyze_output_size_handling_need returns true iff some convolution,
binary-convolution, deconvolution or pooling node that declares a desired
output size (binary convolutions always do; the source checks them without a
with_output_size guard) disagrees with the sliding-window calculator of its
kind: mode all with the declared dilation for convolution and binary
convolution, the needed-input range with unit dilation for deconvolution,
and mode exceed_once_data over the reversed window with unit dilation for
pooling. -/
theorem analyze_output_size_handling_need_spec (nodes : List OSNode) :
    analyze_output_size_handling_need nodes = true ↔
      ∃ n ∈ nodes,
        ((n.kind = PKind.convolution ∧ n.with_output_size = true ∧
            n.output_size ≠
              triMap swor_all_axis n.input_size n.filter_size n.pad n.stride n.dilation) ∨
         (n.kind = PKind.binary_convolution ∧
            n.output_size ≠
              triMap swor_all_axis n.input_size n.filter_size n.pad n.stride n.dilation) ∨
         (n.kind = PKind.deconvolution ∧ n.with_output_size = true ∧
            n.output_size ≠
              triMap swor_needed_input_axis n.input_size n.filter_size n.pad n.stride
                (1, 1, 1)) ∨
         (n.kind = PKind.pooling ∧ n.with_output_size = true ∧
            n.output_size ≠
              triMap swor_exceed_once_axis n.input_size (pool_filter_from_size n.pool_size)
                n.pad n.stride (1, 1, 1))) := by
  rw [analyze_output_size_handling_need, foldl_or_eq_any, Bool.false_or, List.any_eq_true]
  constructor
  · rintro ⟨n, hn, hm⟩
    exact ⟨n, hn, (os_mismatch_iff n).mp hm⟩
  · rintro ⟨n, hn, hm⟩
    exact ⟨n, hn, (os_mismatch_iff n).mpr hm⟩

/-- Boundary case of the spec, section 8: input 7, filter 3, pad 0, stride 1,
dilation 1, mode all gives output 5. -/
theorem swor_all_boundary_a : swor_all_axis 7 3 0 1 1 = 5 := by decide

/-- Boundary case of the spec, section 8: input 7, filter 3, pad 1, stride 2,
dilation 1, mode all gives output 4. -/
theorem swor_all_boundary_b : swor_all_axis 7 3 1 2 1 = 4 := by decide

/-- Boundary case of the spec, section 8: input 7, filter 2, pad 0, stride 2,
mode exceed_once_data gives output 4 (the last window overruns once). -/
theorem swor_exceed_once_boundary : swor_exceed_once_axis 7 2 0 2 1 = 4 := by decide

/-- Boundary case of the spec, section 8: needed input for output 8, filter
3, pad 0, stride 2 is 4. -/
theorem swor_needed_input_boundary : swor_needed_input_axis 8 3 0 2 1 = 4 := by decide

theorem fsv16_scan_step_eq (a : Fsv16Acc) (n : LNode) :
    fsv16_scan_step a n =
      { can_use_fsv16 := a.can_use_fsv16 && !(n.dataFlow && !fsv16_kind_compatible n),
        is_quantized_int8_model := a.is_quantized_int8_model ||
          (decide (n.kind = PKind.quantize) &&
            (decide (n.outDtype = DT.i8) || decide (n.outDtype = DT.u8))),
        opt_deconv_layers_b_fs_zyx_fsv16 := a.opt_deconv_layers_b_fs_zyx_fsv16 +
          (if decide (n.kind = PKind.deconvolution) && n.deconvOptZyxFsv16 then 1 else 0),
        opt_deconv_layers_b_fs_yx_fsv16 := a.opt_deconv_layers_b_fs_yx_fsv16 +
          (if decide (n.kind = PKind.deconvolution) && !n.deconvOptZyxFsv16 &&
              n.deconvSupYxFsv16 then 1 else 0),
        total_crop_layers := a.total_crop_layers +
          (if decide (n.kind = PKind.crop) then 1 else 0) } := by
  unfold fsv16_scan_step
  obtain ⟨c, q, z, y, t⟩ := a
  repeat' split
  all_goals cases hdf : n.dataFlow <;> simp_all

theorem fsv16_scan_foldl_can (nodes : List LNode) (a : Fsv16Acc) :
    (nodes.foldl fsv16_scan_step a).can_use_fsv16 =
      (a.can_use_fsv16 && nodes.all (fun n => !(n.dataFlow && !fsv16_kind_compatible n))) := by
  induction nodes generalizing a with
  | nil => simp
  | cons x r ih => simp [List.foldl_cons, ih, fsv16_scan_step_eq, Bool.and_assoc]

theorem fsv16_scan_foldl_quant (nodes : List LNode) (a : Fsv16Acc) :
    (nodes.foldl fsv16_scan_step a).is_quantized_int8_model =
      (a.is_quantized_int8_model || nodes.any (fun n =>
        decide (n.kind = PKind.quantize) &&
          (decide (n.outDtype = DT.i8) || decide (n.outDtype = DT.u8)))) := by
  induction nodes generalizing a with
  | nil => simp
  | cons x r ih => simp [List.foldl_cons, ih, fsv16_scan_step_eq, Bool.or_assoc]

theorem fsv16_scan_foldl_crop (nodes : List LNode) (a : Fsv16Acc) :
    (nodes.foldl fsv16_scan_step a).total_crop_layers =
      a.total_crop_layers + nodes.countP (fun n => decide (n.kind = PKind.crop)) := by
  induction nodes generalizing a with
  | nil => simp
  | cons x r ih =>
    rw [List.foldl_cons, ih, fsv16_scan_step_eq, List.countP_cons]
    simp only
    rcases hc : decide (x.kind = PKind.crop) with _ | _ <;> simp [hc] <;> omega

theorem fsv16_scan_foldl_deconv (nodes : List LNode) (a : Fsv16Acc) :
    (nodes.foldl fsv16_scan_step a).opt_deconv_layers_b_fs_yx_fsv16 =
      a.opt_deconv_layers_b_fs_yx_fsv16 + nodes.countP (fun n =>
        decide (n.kind = PKind.deconvolution) && !n.deconvOptZyxFsv16 &&
          n.deconvSupYxFsv16) := by
  induction nodes generalizing a with
  | nil => simp
  | cons x r ih =>
    rw [List.foldl_cons, ih, fsv16_scan_step_eq, List.countP_cons]
    simp only
    rcases hc : (decide (x.kind = PKind.deconvolution) && !x.deconvOptZyxFsv16 &&
        x.deconvSupYxFsv16) with _ | _ <;> simp [hc] <;> omega

theorem fsv16_frac_iff (total num : Nat) (h : 11 < total) :
    ((num : ℚ) * (if 0 < total then 1 / (total : ℚ) else 1) > 1 / 2) ↔
      ((num : ℚ) / (total : ℚ) > 1 / 2) := by
  have h0 : 0 < total := by omega
  rw [if_pos h0, mul_one_div]

/-- C3: set_layout_optimizer_attributes enables the b_fs_yx_fsv16 network
attribute iff the model is int8-quantized (some quantize node with i8 or u8
output), or every data-flow node's kind is fsv16-compatible, the total
convolution count exceeds 11, the fraction of b_fs_yx_fsv16-optimizable
convolutions among all convolutions exceeds one half or at least one
deconvolution is fsv16-optimizable, and twice the optimizable-convolution
count exceeds the crop count.  total_conv and num16 stand for the
layout_optimizer counters get_total_conv_count and
get_optimized_conv_count(b_fs_yx_fsv16). -/
theorem set_layout_optimizer_attributes_b_fs_yx_fsv16_iff
    (nodes : List LNode) (total_conv num16 : Nat) :
    (set_layout_optimizer_attributes nodes total_conv num16).b_fs_yx_fsv16_network = true ↔
      ((∃ n ∈ nodes, n.kind = PKind.quantize ∧
          (n.outDtype = DT.i8 ∨ n.outDtype = DT.u8)) ∨
       ((∀ n ∈ nodes, n.dataFlow = true → fsv16_kind_compatible n = true) ∧
        11 < total_conv ∧
        ((num16 : ℚ) / (total_conv : ℚ) > 1 / 2 ∨
          ∃ n ∈ nodes, n.kind = PKind.deconvolution ∧ n.deconvOptZyxFsv16 = false ∧
            n.deconvSupYxFsv16 = true) ∧
        nodes.countP (fun n => decide (n.kind = PKind.crop)) < num16 * 2)) := by
  have hquant : (fsv16_scan nodes).is_quantized_int8_model = true ↔
      ∃ n ∈ nodes, n.kind = PKind.quantize ∧ (n.outDtype = DT.i8 ∨ n.outDtype = DT.u8) := by
    rw [fsv16_scan, fsv16_scan_foldl_quant]
    simp [List.any_eq_true]
  have hcan : (fsv16_scan nodes).can_use_fsv16 = true ↔
      ∀ n ∈ nodes, n.dataFlow = true → fsv16_kind_compatible n = true := by
    rw [fsv16_scan, fsv16_scan_foldl_can]
    simp only [Bool.true_and, List.all_eq_true, Bool.not_eq_true',
      Bool.and_eq_false_iff, Bool.not_eq_false]
    constructor
    · intro h n hn hdf
      rcases h n hn with h' | h'
      · rw [hdf] at h'
        cases h'
      · simpa using h'
    · intro h n hn
      rcases Bool.eq_false_or_eq_true n.dataFlow with h' | h'
      · exact Or.inr (by simpa using h n hn h')
      · exact Or.inl h'
  have hdcount : (fsv16_scan nodes).opt_deconv_layers_b_fs_yx_fsv16 =
      nodes.countP (fun n =>
        decide (n.kind = PKind.deconvolution) && !n.deconvOptZyxFsv16 &&
          n.deconvSupYxFsv16) := by
    rw [fsv16_scan, fsv16_scan_foldl_deconv]
    simp
  have hdeconv : (0 < (fsv16_scan nodes).opt_deconv_layers_b_fs_yx_fsv16) ↔
      ∃ n ∈ nodes, n.kind = PKind.deconvolution ∧ n.deconvOptZyxFsv16 = false ∧
        n.deconvSupYxFsv16 = true := by
    rw [hdcount, List.countP_pos_iff]
    simp [and_assoc]
  have hcrop : (fsv16_scan nodes).total_crop_layers =
      nodes.countP (fun n => decide (n.kind = PKind.crop)) := by
    rw [fsv16_scan, fsv16_scan_foldl_crop]
    simp
  simp only [set_layout_optimizer_attributes, should_use_b_fs_yx_fsv16_conv,
    Bool.or_eq_true, Bool.and_eq_true, decide_eq_true_eq, hcrop]
  constructor
  · rintro (hq | ⟨⟨⟨hc, ht⟩, hf⟩, hcr⟩)
    · exact Or.inl (hquant.mp hq)
    · refine Or.inr ⟨hcan.mp hc, ht, ?_, hcr⟩
      rcases hf with hf | hf
      · exact Or.inl ((fsv16_frac_iff total_conv num16 ht).mp hf)
      · exact Or.inr (hdeconv.mp (by omega))
  · rintro (hq | ⟨hc, ht, hf, hcr⟩)
    · exact Or.inl (hquant.mpr hq)
    · refine Or.inr ⟨⟨⟨hcan.mpr hc, ht⟩, ?_⟩, hcr⟩
      rcases hf with hf | hf
      · exact Or.inl ((fsv16_frac_iff total_conv num16 ht).mpr hf)
      · right
        have := hdeconv.mpr hf
        omega

theorem swap_names_eq (s : PState) (h1 h2 : Nat) (n1 n2 : NodeData)
    (hg1 : getN s h1 = some n1) (hg2 : getN s h2 = some n2)
    (hm1 : lookupKV s.idmap n1.descId = some h1)
    (hm2 : lookupKV s.idmap n2.descId = some h2) :
    swap_names s h1 h2 =
      { s with idmap := setKV (setKV s.idmap n1.descId h2) n2.descId h1,
               arena := updKV (updKV s.arena h1 (fun n => { n with descId := n2.descId }))
                         h2 (fun n => { n with descId := n1.descId }) } := by
  simp only [swap_names, hg1, hg2, hm1, hm2]
  rfl

/-- C7: applying swap_names to the same two nodes twice restores the program
exactly — the id-map bindings, both descriptor ids, every edge and every
other component of the state. -/
theorem swap_names_involutive (s : PState) (h1 h2 : Nat) (n1 n2 : NodeData)
    (hg1 : getN s h1 = some n1) (hg2 : getN s h2 = some n2)
    (hm1 : lookupKV s.idmap n1.descId = some h1)
    (hm2 : lookupKV s.idmap n2.descId = some h2) :
    swap_names (swap_names s h1 h2) h1 h2 = s := by
  by_cases heq : h1 = h2
  · subst heq
    have hn : n1 = n2 := by
      rw [hg1] at hg2
      exact Option.some.inj hg2
    subst hn
    have hone : swap_names s h1 h1 = s := by
      rw [swap_names_eq s h1 h1 n1 n1 hg1 hg1 hm1 hm1]
      rw [setKV_setKV_self, setKV_eq_self s.idmap n1.descId h1 hm1]
      rw [updKV_updKV_self]
      rw [updKV_id s.arena h1 _ (fun v hv => by
        have hv2 : v = n1 := Option.some.inj ((hg1.symm.trans hv).symm)
        rw [hv2])]
    rw [hone, hone]
  · have hne21 : h2 ≠ h1 := Ne.symm heq
    have hid12 : n1.descId ≠ n2.descId := by
      intro hc
      rw [hc, hm2] at hm1
      exact heq (Option.some.inj hm1).symm
    have hid21 : n2.descId ≠ n1.descId := Ne.symm hid12
    rw [swap_names_eq s h1 h2 n1 n2 hg1 hg2 hm1 hm2]
    have hg1' : getN { s with
        idmap := setKV (setKV s.idmap n1.descId h2) n2.descId h1,
        arena := updKV (updKV s.arena h1 (fun n => { n with descId := n2.descId }))
                  h2 (fun n => { n with descId := n1.descId }) } h1 =
        some { n1 with descId := n2.descId } := by
      show lookupKV (updKV (updKV s.arena h1 _) h2 _) h1 = _
      rw [lookupKV_updKV_ne _ h2 h1 _ hne21, lookupKV_updKV_self]
      show (getN s h1).map _ = _
      rw [hg1]
      rfl
    have hg2' : getN { s with
        idmap := setKV (setKV s.idmap n1.descId h2) n2.descId h1,
        arena := updKV (updKV s.arena h1 (fun n => { n with descId := n2.descId }))
                  h2 (fun n => { n with descId := n1.descId }) } h2 =
        some { n2 with descId := n1.descId } := by
      show lookupKV (updKV (updKV s.arena h1 _) h2 _) h2 = _
      rw [lookupKV_updKV_self, lookupKV_updKV_ne _ h1 h2 _ heq]
      show (getN s h2).map _ = _
      rw [hg2]
      rfl
    have hm1' : lookupKV (setKV (setKV s.idmap n1.descId h2) n2.descId h1)
        ({ n1 with descId := n2.descId } : NodeData).descId = some h1 := by
      show lookupKV (setKV (setKV s.idmap n1.descId h2) n2.descId h1) n2.descId = some h1
      rw [lookupKV_setKV_self]
      rw [lookupKV_setKV_ne _ _ _ _ hid12, hm2]
      rfl
    have hm2' : lookupKV (setKV (setKV s.idmap n1.descId h2) n2.descId h1)
        ({ n2 with descId := n1.descId } : NodeData).descId = some h2 := by
      show lookupKV (setKV (setKV s.idmap n1.descId h2) n2.descId h1) n1.descId = some h2
      rw [lookupKV_setKV_ne _ _ _ _ hid21, lookupKV_setKV_self, hm1]
      rfl
    rw [swap_names_eq _ h1 h2 _ _ hg1' hg2' hm1' hm2']
    have hidm : setKV (setKV (setKV (setKV s.idmap n1.descId h2) n2.descId h1)
        ({ n1 with descId := n2.descId } : NodeData).descId h2)
        ({ n2 with descId := n1.descId } : NodeData).descId h1 = s.idmap := by
      show setKV (setKV (setKV (setKV s.idmap n1.descId h2) n2.descId h1)
        n2.descId h2) n1.descId h1 = s.idmap
      rw [setKV_setKV_self]
      rw [setKV_comm _ _ _ _ _ hid21]
      rw [setKV_setKV_self]
      rw [setKV_eq_self _ _ _ hm1]
      exact setKV_eq_self _ _ _ hm2
    have harena : updKV (updKV (updKV (updKV s.arena h1
          (fun n => { n with descId := n2.descId })) h2
          (fun n => { n with descId := n1.descId })) h1
          (fun n => { n with descId := ({ n2 with descId := n1.descId } : NodeData).descId }))
          h2
          (fun n => { n with descId := ({ n1 with descId := n2.descId } : NodeData).descId })
        = s.arena := by
      show updKV (updKV (updKV (updKV s.arena h1
          (fun n => { n with descId := n2.descId })) h2
          (fun n => { n with descId := n1.descId })) h1
          (fun n => { n with descId := n1.descId })) h2
          (fun n => { n with descId := n2.descId }) = s.arena
      rw [updKV_comm _ h2 h1 _ _ hne21]
      rw [updKV_updKV_self]
      rw [updKV_updKV_self]
      rw [updKV_id _ h2 _ (fun v hv => by
        rw [lookupKV_updKV_ne _ h1 h2 _ heq] at hv
        have hv2 : v = n2 := Option.some.inj ((hg2.symm.trans hv).symm)
        rw [hv2])]
      rw [updKV_id _ h1 _ (fun v hv => by
        have hv2 : v = n1 := Option.some.inj ((hg1.symm.trans hv).symm)
        rw [hv2])]
    simp only [hidm, harena]

theorem can_drop_input_eq_claim (q : QFlags) (i : Nat) :
    can_drop_input q i = claim_drop_input q i := by
  unfold can_drop_input claim_drop_input
  rw [show (out_range_usage q || (!out_range_usage q && !q.needClamp)) =
      (out_range_usage q || !q.needClamp) from by cases out_range_usage q <;> simp]
  rw [Bool.or_comm (!q.needPreShift) q.perTensorInputShift]
  rw [Bool.or_comm (!q.needPostScale) q.perTensorOutputScale]
  rw [Bool.or_comm (!q.needPostShift) q.perTensorOutputShift]

theorem fuse_deps_loop_nil (hostH : Nat) (hostId : String) (pq ss : Bool) (q : QFlags)
    (s : PState) (i : Nat) :
    fuse_deps_loop hostH hostId pq ss q s i [] = s := rfl

theorem fuse_deps_loop_cons (hostH : Nat) (hostId : String) (pq ss : Bool) (q : QFlags)
    (s : PState) (i : Nat) (d : Nat) (r : List Nat) :
    fuse_deps_loop hostH hostId pq ss q s i (d :: r) =
      fuse_deps_loop hostH hostId pq ss q
        (fuse_dep_step hostH hostId pq ss q s i d) (i + 1) r := rfl

theorem kept_deps_mem (hostH : Nat) (q : QFlags) :
    ∀ (i : Nat) (ds : List Nat) (x : Nat),
      x ∈ kept_deps hostH q i ds → x ∈ ds ∧ x ≠ hostH := by
  intro i ds
  induction ds generalizing i with
  | nil =>
    intro x hx
    simp [kept_deps] at hx
  | cons d r ih =>
    intro x hx
    rw [kept_deps] at hx
    by_cases hcond : (d = hostH || claim_drop_input q i) = true
    · rw [if_pos hcond] at hx
      obtain ⟨h1, h2⟩ := ih (i + 1) x hx
      exact ⟨List.mem_cons_of_mem _ h1, h2⟩
    · rw [if_neg hcond] at hx
      rcases List.mem_cons.mp hx with heq | hx
      · subst heq
        refine ⟨List.mem_cons_self x r, ?_⟩
        intro hc
        exact hcond (by simp [hc])
      · obtain ⟨h1, h2⟩ := ih (i + 1) x hx
        exact ⟨List.mem_cons_of_mem _ h1, h2⟩

theorem fuse_deps_loop_spec (q : QFlags) (hostH : Nat) (ds : List Nat) :
    ∀ (i : Nat) (s : PState) (hd : NodeData),
      getN s hostH = some hd →
      ds.Nodup →
      (∀ d ∈ ds, d ≠ hostH → ∃ dd, getN s d = some dd ∧ dd.descId ≠ hd.descId) →
      (getN (fuse_deps_loop hostH hd.descId true true q s i ds) hostH =
         some { hd with deps := hd.deps ++ kept_deps hostH q i ds }) ∧
      (∀ d ∈ kept_deps hostH q i ds,
         ∃ dd, getN s d = some dd ∧
           getN (fuse_deps_loop hostH hd.descId true true q s i ds) d =
             some { dd with users := dd.users ++ [hostH] }) ∧
      (∀ d ∈ ds, d ∉ kept_deps hostH q i ds → d ≠ hostH →
         getN (fuse_deps_loop hostH hd.descId true true q s i ds) d = getN s d) ∧
      (∀ x, x ≠ hostH → x ∉ ds →
         getN (fuse_deps_loop hostH hd.descId true true q s i ds) x = getN s x) := by
  induction ds with
  | nil =>
    intro i s hd hhost hnodup hids
    refine ⟨?_, ?_, ?_, ?_⟩
    · rw [fuse_deps_loop_nil, hhost]
      simp [kept_deps]
    · intro d hdm
      simp [kept_deps] at hdm
    · intro d hdm
      simp at hdm
    · intro x _ _
      rw [fuse_deps_loop_nil]
  | cons d r ih =>
    intro i s hd hhost hnodup hids
    have hnodup_r : r.Nodup := (List.nodup_cons.mp hnodup).2
    have hdnr : d ∉ r := (List.nodup_cons.mp hnodup).1
    by_cases hdH : d = hostH
    · subst hdH
      have hstep : fuse_dep_step d hd.descId true true q s i d = s := by
        simp [fuse_dep_step, hhost]
      have hkept : kept_deps d q i (d :: r) = kept_deps d q (i + 1) r := by
        simp [kept_deps]
      rw [fuse_deps_loop_cons, hstep, hkept]
      obtain ⟨c1, c2, c3, c4⟩ := ih (i + 1) s hd hhost hnodup_r
        (fun x hx => hids x (List.mem_cons_of_mem _ hx))
      refine ⟨c1, c2, ?_, ?_⟩
      · intro x hx hxk hxH
        rcases List.mem_cons.mp hx with hx | hx
        · exact absurd hx hxH
        · exact c3 x hx hxk hxH
      · intro x hxH hxm
        exact c4 x hxH (fun hc => hxm (List.mem_cons_of_mem _ hc))
    · obtain ⟨dd, hdd, hddid⟩ := hids d (List.mem_cons_self d r) hdH
      by_cases hdrop : claim_drop_input q i = true
      · have hcan : can_drop_input q i = true := by
          rw [can_drop_input_eq_claim]
          exact hdrop
        have hstep : fuse_dep_step hostH hd.descId true true q s i d = s := by
          simp [fuse_dep_step, hdd, hddid, hcan]
        have hkept : kept_deps hostH q i (d :: r) = kept_deps hostH q (i + 1) r := by
          simp [kept_deps, hdrop]
        rw [fuse_deps_loop_cons, hstep, hkept]
        obtain ⟨c1, c2, c3, c4⟩ := ih (i + 1) s hd hhost hnodup_r
          (fun x hx => hids x (List.mem_cons_of_mem _ hx))
        refine ⟨c1, c2, ?_, ?_⟩
        · intro x hx hxk hxH
          rcases List.mem_cons.mp hx with hx | hx
          · subst hx
            exact c4 x hxH hdnr
          · exact c3 x hx hxk hxH
        · intro x hxH hxm
          exact c4 x hxH (fun hc => hxm (List.mem_cons_of_mem _ hc))
      · have hdropF : claim_drop_input q i = false := by
          rcases Bool.eq_false_or_eq_true (claim_drop_input q i) with hf | hf
          · exact absurd hf hdrop
          · exact hf
        have hcan : can_drop_input q i = false := by
          rw [can_drop_input_eq_claim]
          exact hdropF
        have hstep : fuse_dep_step hostH hd.descId true true q s i d =
            updN (updN s hostH (fun hn => { hn with deps := hn.deps ++ [d] })) d
              (fun dn => { dn with users := dn.users ++ [hostH] }) := by
          simp [fuse_dep_step, hdd, hddid, hcan]
        have hkept : kept_deps hostH q i (d :: r) = d :: kept_deps hostH q (i + 1) r := by
          simp [kept_deps, hdH, hdropF]
        have hhost2 : getN (updN (updN s hostH (fun hn => { hn with deps := hn.deps ++ [d] })) d
              (fun dn => { dn with users := dn.users ++ [hostH] })) hostH =
            some { hd with deps := hd.deps ++ [d] } := by
          rw [getN_updN_ne _ d hostH _ hdH, getN_updN_self, hhost]
          rfl
        have hdval : getN (updN (updN s hostH (fun hn => { hn with deps := hn.deps ++ [d] })) d
              (fun dn => { dn with users := dn.users ++ [hostH] })) d =
            some { dd with users := dd.users ++ [hostH] } := by
          rw [getN_updN_self, getN_updN_ne _ hostH d _ (Ne.symm hdH), hdd]
          rfl
        have hframe2 : ∀ x, x ≠ hostH → x ≠ d →
            getN (updN (updN s hostH (fun hn => { hn with deps := hn.deps ++ [d] })) d
              (fun dn => { dn with users := dn.users ++ [hostH] })) x = getN s x := by
          intro x hx1 hx2
          rw [getN_updN_ne _ d x _ (Ne.symm hx2), getN_updN_ne _ hostH x _ (Ne.symm hx1)]
        have hids2 : ∀ x ∈ r, x ≠ hostH →
            ∃ dx, getN (updN (updN s hostH (fun hn => { hn with deps := hn.deps ++ [d] })) d
              (fun dn => { dn with users := dn.users ++ [hostH] })) x = some dx ∧
              dx.descId ≠ ({ hd with deps := hd.deps ++ [d] } : NodeData).descId := by
          intro x hx hxH
          obtain ⟨dx, hdx, hdxid⟩ := hids x (List.mem_cons_of_mem _ hx) hxH
          have hxd : x ≠ d := fun hc => hdnr (hc ▸ hx)
          refine ⟨dx, ?_, hdxid⟩
          rw [hframe2 x hxH hxd]
          exact hdx
        obtain ⟨c1, c2, c3, c4⟩ := ih (i + 1)
          (updN (updN s hostH (fun hn => { hn with deps := hn.deps ++ [d] })) d
            (fun dn => { dn with users := dn.users ++ [hostH] }))
          { hd with deps := hd.deps ++ [d] } hhost2 hnodup_r hids2
        rw [fuse_deps_loop_cons, hstep, hkept]
        have happ : (hd.deps ++ [d]) ++ kept_deps hostH q (i + 1) r =
            hd.deps ++ (d :: kept_deps hostH q (i + 1) r) := by
          simp
        refine ⟨?_, ?_, ?_, ?_⟩
        · rw [c1]
          simp [happ]
        · intro x hx
          rcases List.mem_cons.mp hx with heq | hx
          · subst heq
            refine ⟨dd, hdd, ?_⟩
            rw [c4 x hdH hdnr]
            exact hdval
          · obtain ⟨hxr, hxH⟩ := kept_deps_mem hostH q (i + 1) r x hx
            have hxd : x ≠ d := fun hc => hdnr (hc ▸ hxr)
            obtain ⟨dx, hdx, hdx2⟩ := c2 x hx
            refine ⟨dx, ?_, hdx2⟩
            rw [← hframe2 x hxH hxd]
            exact hdx
        · intro x hx hxk hxH
          rcases List.mem_cons.mp hx with heq | hx
          · subst heq
            exact absurd (List.mem_cons_self x _) hxk
          · have hxk2 : x ∉ kept_deps hostH q (i + 1) r :=
              fun hc => hxk (List.mem_cons_of_mem _ hc)
            have hxd : x ≠ d := fun hc => hdnr (hc ▸ hx)
            rw [c3 x hx hxk2 hxH]
            exact hframe2 x hxH hxd
        · intro x hxH hxm
          have hxr : x ∉ r := fun hc => hxm (List.mem_cons_of_mem _ hc)
          have hxd : x ≠ d := fun hc => hxm (hc ▸ List.mem_cons_self d r)
          rw [c4 x hxH hxr]
          exact hframe2 x hxH hxd

/-- C2: when fuse_nodes absorbs a quantize peer with scale_shift_opt active,
its dependency-merging loop drops peer dependency i exactly when the claim's
table says so — i in {1, 2} when the per-tensor output range is in use or
clamping is not needed, i in {3, 4} always, i = 5 iff per-tensor input
scale, i = 6 iff per-tensor input shift or no pre-shift, i = 7 iff
per-tensor output scale or no post-scale, i = 8 iff per-tensor output shift
or no post-shift — and appends every other non-host dependency to the
host's dependency list, in order, with a symmetric user edge; dropped
dependencies are left untouched. -/
theorem fuse_nodes_quantize_drop_spec
    (s : PState) (hostH : Nat) (hd : NodeData) (peerDeps : List Nat) (q : QFlags)
    (hhost : getN s hostH = some hd)
    (hnodup : peerDeps.Nodup)
    (hids : ∀ d ∈ peerDeps, d ≠ hostH →
      ∃ dd, getN s d = some dd ∧ dd.descId ≠ hd.descId) :
    (∀ i, can_drop_input q i = claim_drop_input q i) ∧
    getN (fuse_add_deps s hostH hd.descId peerDeps true true q) hostH =
      some { hd with deps := hd.deps ++ kept_deps hostH q 0 peerDeps } ∧
    (∀ d ∈ kept_deps hostH q 0 peerDeps,
       ∃ dd, getN s d = some dd ∧
         getN (fuse_add_deps s hostH hd.descId peerDeps true true q) d =
           some { dd with users := dd.users ++ [hostH] }) ∧
    (∀ d ∈ peerDeps, d ∉ kept_deps hostH q 0 peerDeps → d ≠ hostH →
       getN (fuse_add_deps s hostH hd.descId peerDeps true true q) d = getN s d) := by
  obtain ⟨c1, c2, c3, c4⟩ := fuse_deps_loop_spec q hostH peerDeps 0 s hd hhost hnodup hids
  exact ⟨fun i => can_drop_input_eq_claim q i, c1, c2, c3⟩

/-- The host node of the fusing witness. -/
def fuseHost : NodeData :=
  { descId := "h", deps := [], users := [], output := false, constant := false,
    dataFlow := false, userMark := false, validLayout := false, layoutTag := 0,
    memDeps := [] }

/-- A peer dependency of the fusing witness. -/
def fuseDepA : NodeData :=
  { descId := "a", deps := [], users := [], output := false, constant := false,
    dataFlow := false, userMark := false, validLayout := false, layoutTag := 0,
    memDeps := [] }

/-- A peer dependency of the fusing witness. -/
def fuseDepB : NodeData :=
  { descId := "b", deps := [], users := [], output := false, constant := false,
    dataFlow := false, userMark := false, validLayout := false, layoutTag := 0,
    memDeps := [] }

/-- A peer dependency of the fusing witness, sitting at drop index 3. -/
def fuseDepC : NodeData :=
  { descId := "c", deps := [], users := [], output := false, constant := false,
    dataFlow := false, userMark := false, validLayout := false, layoutTag := 0,
    memDeps := [] }

/-- Quantize flags of the fusing witness: clamping needed and no per-tensor
output range, so indices 1 and 2 are kept while 3 and 4 are dropped. -/
def fuseQ : QFlags :=
  { perTensorOutputRange := false, outputLoVal := 0, outputHiVal := 0,
    needClamp := true, perTensorInputScale := false, perTensorInputShift := false,
    perTensorOutputScale := false, perTensorOutputShift := false,
    needPreShift := true, needPostScale := true, needPostShift := true }

/-- The program of the fusing witness: host node 1 and the peer dependencies
11, 12 and 13. -/
def fuseState : PState :=
  { arena := [(1, fuseHost), (11, fuseDepA), (12, fuseDepB), (13, fuseDepC)],
    idmap := [("h", 1), ("a", 11), ("b", 12), ("c", 13)], inputs := [],
    outputs := [], porder := [], optimizedOut := [], debugBuild := false }

/-- Witness for C2: peer dependency list [host, 11, 12, 13]; indices 1 and 2
are kept and appended to the host, index 3 is dropped and untouched. -/
theorem fuse_nodes_quantize_drop_spec_witness :
    kept_deps 1 fuseQ 0 [1, 11, 12, 13] = [11, 12] ∧
    getN (fuse_add_deps fuseState 1 fuseHost.descId [1, 11, 12, 13] true true fuseQ) 1 =
      some { fuseHost with deps := fuseHost.deps ++ kept_deps 1 fuseQ 0 [1, 11, 12, 13] } ∧
    getN (fuse_add_deps fuseState 1 fuseHost.descId [1, 11, 12, 13] true true fuseQ) 13 =
      getN fuseState 13 := by
  have h := fuse_nodes_quantize_drop_spec fuseState 1 fuseHost [1, 11, 12, 13] fuseQ
    (by rfl) (by decide)
    (by
      intro d hdm hne
      fin_cases hdm
      · exact absurd rfl hne
      · exact ⟨fuseDepA, rfl, by decide⟩
      · exact ⟨fuseDepB, rfl, by decide⟩
      · exact ⟨fuseDepC, rfl, by decide⟩)
  exact ⟨by decide, h.2.1, h.2.2.2 13 (by decide) (by decide) (by decide)⟩

/-- First node of the swap witness. -/
def swNode1 : NodeData :=
  { descId := "p", deps := [], users := [2], output := false, constant := false,
    dataFlow := false, userMark := false, validLayout := false, layoutTag := 0,
    memDeps := [] }

/-- Second node of the swap witness. -/
def swNode2 : NodeData :=
  { descId := "q", deps := [1], users := [], output := false, constant := false,
    dataFlow := false, userMark := false, validLayout := false, layoutTag := 0,
    memDeps := [] }

/-- A two-node program used by the swap witness. -/
def swState : PState :=
  { arena := [(1, swNode1), (2, swNode2)], idmap := [("p", 1), ("q", 2)],
    inputs := [1], outputs := [2], porder := [1, 2], optimizedOut := [],
    debugBuild := false }

/-- Witness for C7 on the concrete two-node program. -/
theorem swap_names_involutive_witness :
    swap_names (swap_names swState 1 2) 1 2 = swState :=
  swap_names_involutive swState 1 2 swNode1 swNode2 (by rfl) (by rfl) (by rfl) (by rfl)

theorem filter_ne_of_not_mem (t : List Nat) (d : Nat) (h : d ∉ t) :
    t.filter (fun x => x ≠ d) = t :=
  filter_all_eq _ t (fun x hx => decide_eq_true (fun hc => h (hc ▸ hx)))

theorem lookupKV_append {κ ν : Type} [DecidableEq κ] (l1 l2 : List (κ × ν)) (k : κ) :
    lookupKV (l1 ++ l2) k =
      (match lookupKV l1 k with
       | some v => some v
       | none => lookupKV l2 k) := by
  induction l1 with
  | nil => rfl
  | cons e r ih =>
    by_cases he : e.1 = k
    · simp [lookupKV, he]
    · simp [lookupKV, he, ih]

theorem mem_insertBefore (l : List Nat) (a n x : Nat) (hx : x ∈ l) :
    x ∈ insertBefore l a n := by
  induction l with
  | nil => cases hx
  | cons y r ih =>
    rw [insertBefore]
    by_cases hy : y = a
    · rw [if_pos hy]
      exact List.mem_cons_of_mem n hx
    · rw [if_neg hy]
      rcases List.mem_cons.mp hx with heq | hx2
      · exact heq ▸ List.mem_cons_self y _
      · exact List.mem_cons_of_mem y (ih hx2)

theorem insertBefore_erase (l : List Nat) (a n : Nat) (ha : a ∈ l) (hna : n ≠ a) :
    (insertBefore l a n).erase a = replaceFirst l a n := by
  induction l with
  | nil => cases ha
  | cons y r ih =>
    rw [insertBefore, replaceFirst]
    by_cases hy : y = a
    · rw [if_pos hy, if_pos hy]
      rw [List.erase_cons, if_neg (by simpa using hna)]
      rw [List.erase_cons, if_pos (by simpa using hy)]
    · rw [if_neg hy, if_neg hy]
      rw [List.erase_cons, if_neg (by simpa using hy)]
      have har : a ∈ r := by
        rcases List.mem_cons.mp ha with heq | h2
        · exact absurd heq.symm hy
        · exact h2
      rw [ih har]

theorem replace_move_deps_spec (oldH newH : Nat) (hne : oldH ≠ newH) :
    ∀ (L : List Nat) (s : PState) (od nn : NodeData),
      getN s oldH = some od → getN s newH = some nn → od.deps = L → L.Nodup →
      (∀ d ∈ L, d ≠ oldH ∧ d ≠ newH) →
      getN (replace_move_deps L.length s oldH newH) oldH = some { od with deps := [] } ∧
      getN (replace_move_deps L.length s oldH newH) newH =
        some { nn with deps := nn.deps ++ L } ∧
      (replace_move_deps L.length s oldH newH).idmap = s.idmap ∧
      (replace_move_deps L.length s oldH newH).inputs = s.inputs ∧
      (replace_move_deps L.length s oldH newH).outputs = s.outputs ∧
      (replace_move_deps L.length s oldH newH).porder = s.porder ∧
      (replace_move_deps L.length s oldH newH).optimizedOut = s.optimizedOut := by
  intro L
  induction L with
  | nil =>
    intro s od nn hold hnew hdeps _ _
    refine ⟨?_, ?_, rfl, rfl, rfl, rfl, rfl⟩
    · show getN s oldH = some { od with deps := [] }
      rw [hold, ← hdeps]
    · show getN s newH = some { nn with deps := nn.deps ++ [] }
      rw [hnew]
      simp
  | cons d t ih =>
    intro s od nn hold hnew hdeps hnodup hmem
    have hd_old : d ≠ oldH := (hmem d (List.mem_cons_self d t)).1
    have hd_new : d ≠ newH := (hmem d (List.mem_cons_self d t)).2
    have hdt : d ∉ t := (List.nodup_cons.mp hnodup).1
    have hstep : replace_move_deps (d :: t).length s oldH newH =
        replace_move_deps t.length
          (remove_connection (add_connection s d newH) d oldH) oldH newH := by
      show replace_move_deps (t.length + 1) s oldH newH = _
      simp only [replace_move_deps, hold, hdeps]
    have hs2old : getN (remove_connection (add_connection s d newH) d oldH) oldH =
        some { od with deps := t } := by
      unfold remove_connection add_connection
      rw [getN_updN_self, getN_updN_ne _ d oldH _ hd_old,
        getN_updN_ne _ newH oldH _ (Ne.symm hne), getN_updN_ne _ d oldH _ hd_old, hold]
      have hfil : od.deps.filter (fun x => x ≠ d) = t := by
        rw [hdeps, List.filter_cons]
        rw [if_neg (by simp)]
        exact filter_ne_of_not_mem t d hdt
      simp only [Option.map_some']
      rw [hfil]
    have hs2new : getN (remove_connection (add_connection s d newH) d oldH) newH =
        some { nn with deps := nn.deps ++ [d] } := by
      unfold remove_connection add_connection
      rw [getN_updN_ne _ oldH newH _ hne, getN_updN_ne _ d newH _ hd_new,
        getN_updN_self, getN_updN_ne _ d newH _ hd_new, hnew]
      rfl
    obtain ⟨c1, c2, c3, c4, c5, c6, c7⟩ := ih
      (remove_connection (add_connection s d newH) d oldH)
      { od with deps := t } { nn with deps := nn.deps ++ [d] }
      hs2old hs2new rfl (List.nodup_cons.mp hnodup).2
      (fun x hx => hmem x (List.mem_cons_of_mem d hx))
    rw [hstep]
    refine ⟨c1, ?_, c3, c4, c5, c6, c7⟩
    rw [c2]
    simp

theorem replace_move_users_spec (oldH newH : Nat) (hne : oldH ≠ newH) :
    ∀ (U : List Nat) (s : PState) (nn : NodeData),
      getN s newH = some nn →
      (∀ u ∈ U, u ≠ oldH ∧ u ≠ newH) →
      getN (replace_move_users oldH newH s U) newH =
        some { nn with users := nn.users ++ U } ∧
      getN (replace_move_users oldH newH s U) oldH = getN s oldH ∧
      (replace_move_users oldH newH s U).idmap = s.idmap ∧
      (replace_move_users oldH newH s U).inputs = s.inputs ∧
      (replace_move_users oldH newH s U).outputs = s.outputs ∧
      (replace_move_users oldH newH s U).porder = s.porder ∧
      (replace_move_users oldH newH s U).optimizedOut = s.optimizedOut := by
  intro U
  induction U with
  | nil =>
    intro s nn hnew _
    refine ⟨?_, rfl, rfl, rfl, rfl, rfl, rfl⟩
    show getN s newH = some { nn with users := nn.users ++ [] }
    rw [hnew]
    simp
  | cons u t ih =>
    intro s nn hnew hmem
    have hu_old : u ≠ oldH := (hmem u (List.mem_cons_self u t)).1
    have hu_new : u ≠ newH := (hmem u (List.mem_cons_self u t)).2
    have hstep : replace_move_users oldH newH s (u :: t) =
        replace_move_users oldH newH
          (updN (updN s newH (fun n => { n with users := n.users ++ [u] }))
            u (fun un => { un with deps := replaceFirst un.deps oldH newH })) t := rfl
    have hs2new : getN (updN (updN s newH (fun n => { n with users := n.users ++ [u] }))
          u (fun un => { un with deps := replaceFirst un.deps oldH newH })) newH =
        some { nn with users := nn.users ++ [u] } := by
      rw [getN_updN_ne _ u newH _ hu_new, getN_updN_self, hnew]
      rfl
    obtain ⟨c1, c2, c3, c4, c5, c6, c7⟩ := ih
      (updN (updN s newH (fun n => { n with users := n.users ++ [u] }))
        u (fun un => { un with deps := replaceFirst un.deps oldH newH }))
      { nn with users := nn.users ++ [u] } hs2new
      (fun x hx => hmem x (List.mem_cons_of_mem u hx))
    rw [hstep]
    refine ⟨?_, ?_, c3, c4, c5, c6, c7⟩
    · rw [c1]
      simp
    · rw [c2]
      rw [getN_updN_ne _ u oldH _ hu_old, getN_updN_ne _ newH oldH _ (Ne.symm hne)]

theorem replace_strip_output_getN_ne (oldH : Nat) (w : Bool) (s : PState) (x : Nat)
    (hx : x ≠ oldH) : getN (replace_strip_output oldH w s) x = getN s x := by
  unfold replace_strip_output
  by_cases hw : w = true
  · rw [if_pos hw]
    exact getN_updN_ne s oldH x _ (Ne.symm hx)
  · rw [if_neg hw]

theorem replace_strip_output_comps (oldH : Nat) (w : Bool) (s : PState) :
    (replace_strip_output oldH w s).idmap = s.idmap ∧
    (replace_strip_output oldH w s).inputs = s.inputs ∧
    (replace_strip_output oldH w s).porder = s.porder ∧
    (replace_strip_output oldH w s).optimizedOut = s.optimizedOut ∧
    (replace_strip_output oldH w s).outputs =
      (if w then s.outputs.filter (fun x => x ≠ oldH) else s.outputs) := by
  unfold replace_strip_output
  by_cases hw : w = true
  · rw [if_pos hw, if_pos hw]
    exact ⟨rfl, rfl, rfl, rfl, rfl⟩
  · rw [if_neg hw, if_neg hw]
    exact ⟨rfl, rfl, rfl, rfl, rfl⟩

theorem replace_fix_inputs_comps (oldH newH : Nat) (s : PState) :
    (replace_fix_inputs oldH newH s).arena = s.arena ∧
    (replace_fix_inputs oldH newH s).idmap = s.idmap ∧
    (replace_fix_inputs oldH newH s).outputs = s.outputs ∧
    (replace_fix_inputs oldH newH s).porder = s.porder ∧
    (replace_fix_inputs oldH newH s).optimizedOut = s.optimizedOut := by
  unfold replace_fix_inputs
  dsimp only
  split <;> split <;> exact ⟨rfl, rfl, rfl, rfl, rfl⟩

theorem replace_fix_inputs_getN (oldH newH : Nat) (s : PState) (x : Nat) :
    getN (replace_fix_inputs oldH newH s) x = getN s x := by
  show lookupKV (replace_fix_inputs oldH newH s).arena x = lookupKV s.arena x
  rw [(replace_fix_inputs_comps oldH newH s).1]

theorem replace_fix_porder_comps (oldH newH : Nat) (s : PState) :
    (replace_fix_porder oldH newH s).arena = s.arena ∧
    (replace_fix_porder oldH newH s).idmap = s.idmap ∧
    (replace_fix_porder oldH newH s).inputs = s.inputs ∧
    (replace_fix_porder oldH newH s).outputs = s.outputs ∧
    (replace_fix_porder oldH newH s).optimizedOut = s.optimizedOut := by
  unfold replace_fix_porder
  dsimp only
  split <;> exact ⟨rfl, rfl, rfl, rfl, rfl⟩

theorem replace_fix_porder_getN (oldH newH : Nat) (s : PState) (x : Nat) :
    getN (replace_fix_porder oldH newH s) x = getN s x := by
  show lookupKV (replace_fix_porder oldH newH s).arena x = lookupKV s.arena x
  rw [(replace_fix_porder_comps oldH newH s).1]

theorem replace_fix_porder_porder (oldH newH : Nat) (s : PState)
    (hmem : oldH ∈ s.porder) (hnne : newH ≠ oldH) :
    (replace_fix_porder oldH newH s).porder = replaceFirst s.porder oldH newH := by
  unfold replace_fix_porder
  rw [if_pos (show oldH ∈ ({ s with porder := insertBefore s.porder oldH newH } : PState).porder
    from mem_insertBefore s.porder oldH newH oldH hmem)]
  exact insertBefore_erase s.porder oldH newH hmem hnne

theorem replace_restore_output_getN_ne (newH : Nat) (w : Bool) (s : PState) (x : Nat)
    (hx : x ≠ newH) : getN (replace_restore_output newH w s) x = getN s x := by
  unfold replace_restore_output
  by_cases hw : w = true
  · rw [if_pos hw]
    exact getN_updN_ne s newH x _ (Ne.symm hx)
  · rw [if_neg hw]

theorem replace_restore_output_comps (newH : Nat) (w : Bool) (s : PState) :
    (replace_restore_output newH w s).idmap = s.idmap ∧
    (replace_restore_output newH w s).inputs = s.inputs ∧
    (replace_restore_output newH w s).porder = s.porder ∧
    (replace_restore_output newH w s).optimizedOut = s.optimizedOut ∧
    (replace_restore_output newH w s).outputs =
      (if w then s.outputs ++ [newH] else s.outputs) := by
  unfold replace_restore_output
  by_cases hw : w = true
  · rw [if_pos hw, if_pos hw]
    exact ⟨rfl, rfl, rfl, rfl, rfl⟩
  · rw [if_neg hw, if_neg hw]
    exact ⟨rfl, rfl, rfl, rfl, rfl⟩

theorem replace_restore_output_getN_self (newH : Nat) (w : Bool) (s : PState)
    (nd : NodeData) (hget : getN s newH = some nd) :
    getN (replace_restore_output newH w s) newH =
      some (if w then { nd with output := true } else nd) := by
  unfold replace_restore_output
  by_cases hw : w = true
  · rw [if_pos hw, if_pos hw]
    show getN (updN s newH _) newH = _
    rw [getN_updN_self, hget]
    rfl
  · rw [if_neg hw, if_neg hw, hget]

theorem rename_success (s : PState) (h : Nat) (nd : NodeData) (newId : String) (p : Nat)
    (hget : getN s h = some nd)
    (hfree : lookupKV s.idmap newId = none)
    (hnout : nd.output = false)
    (hbind : lookupKV s.idmap nd.descId = some p) :
    rename s h newId =
      (updN { s with idmap := eraseKV (s.idmap ++ [(newId, p)]) nd.descId } h
        (fun n => { n with descId := newId }), none) := by
  simp only [rename, hget, hfree, hnout, hbind]
  rfl

theorem replace_pre_spec (s : PState) (oldH newH : Nat) (od nn : NodeData)
    (hold : getN s oldH = some od) (hnew : getN s newH = some nn)
    (hne : oldH ≠ newH)
    (hdnodup : od.deps.Nodup)
    (hdmem : ∀ d ∈ od.deps, d ≠ oldH ∧ d ≠ newH)
    (humem : ∀ u ∈ od.users, u ≠ oldH ∧ u ≠ newH)
    (hpord : oldH ∈ s.porder) :
    getN (replace_pre s oldH newH od) newH =
      some { nn with
        deps := nn.deps ++ od.deps, users := nn.users ++ od.users,
        constant := od.constant, dataFlow := od.dataFlow, userMark := od.userMark,
        validLayout := od.validLayout, layoutTag := od.layoutTag } ∧
    getN (replace_pre s oldH newH od) oldH = none ∧
    (replace_pre s oldH newH od).idmap = eraseKV s.idmap od.descId ∧
    (replace_pre s oldH newH od).porder = replaceFirst s.porder oldH newH ∧
    (replace_pre s oldH newH od).outputs =
      (if od.output then s.outputs.filter (fun x => x ≠ oldH) else s.outputs) ∧
    (replace_pre s oldH newH od).optimizedOut = s.optimizedOut := by
  have hg1old : getN (updN s newH (fun n =>
      { n with layoutTag := od.layoutTag, validLayout := od.validLayout })) oldH = some od := by
    rw [getN_updN_ne _ newH oldH _ (Ne.symm hne), hold]
  have hg1new : getN (updN s newH (fun n =>
      { n with layoutTag := od.layoutTag, validLayout := od.validLayout })) newH =
      some { nn with layoutTag := od.layoutTag, validLayout := od.validLayout } := by
    rw [getN_updN_self, hnew]
    rfl
  obtain ⟨d1, d2, d3, d4, d5, d6, d7⟩ := replace_move_deps_spec oldH newH hne od.deps
    (updN s newH (fun n => { n with layoutTag := od.layoutTag, validLayout := od.validLayout }))
    od { nn with layoutTag := od.layoutTag, validLayout := od.validLayout }
    hg1old hg1new rfl hdnodup hdmem
  obtain ⟨u1, u2, u3, u4, u5, u6, u7⟩ := replace_move_users_spec oldH newH hne od.users
    (replace_move_deps od.deps.length
      (updN s newH (fun n => { n with layoutTag := od.layoutTag, validLayout := od.validLayout }))
      oldH newH)
    { nn with
      layoutTag := od.layoutTag, validLayout := od.validLayout,
      deps := nn.deps ++ od.deps }
    (by rw [d2]) humem
  refine ⟨?_, ?_, ?_, ?_, ?_, ?_⟩
  · show getN (replace_erase_old oldH od.descId _) newH = _
    unfold replace_erase_old
    show lookupKV (eraseKV _ oldH) newH = _
    rw [lookupKV_eraseKV_ne _ oldH newH (fun hc => hne hc)]
    show getN (replace_fix_porder oldH newH _) newH = _
    rw [replace_fix_porder_getN]
    rw [getN_updN_self]
    rw [replace_fix_inputs_getN]
    rw [replace_strip_output_getN_ne oldH od.output _ newH (Ne.symm hne)]
    rw [getN_updN_ne _ oldH newH _ hne]
    rw [u1]
    rfl
  · show getN (replace_erase_old oldH od.descId _) oldH = _
    unfold replace_erase_old
    show lookupKV (eraseKV _ oldH) oldH = _
    exact lookupKV_eraseKV_self _ oldH
  · show (replace_erase_old oldH od.descId _).idmap = _
    unfold replace_erase_old
    show eraseKV (replace_fix_porder oldH newH _).idmap od.descId = _
    rw [(replace_fix_porder_comps _ _ _).2.1]
    show eraseKV (updN _ newH _).idmap od.descId = _
    rw [updN_idmap]
    rw [(replace_fix_inputs_comps _ _ _).2.1]
    rw [(replace_strip_output_comps _ _ _).1]
    rw [updN_idmap, u3, d3, updN_idmap]
  · show (replace_erase_old oldH od.descId _).porder = _
    unfold replace_erase_old
    show (replace_fix_porder oldH newH _).porder = _
    rw [replace_fix_porder_porder _ _ _ ?hm (Ne.symm hne)]
    case hm =>
      show oldH ∈ (updN _ newH _).porder
      rw [updN_porder]
      rw [(replace_fix_inputs_comps _ _ _).2.2.2.1]
      rw [(replace_strip_output_comps _ _ _).2.2.1]
      rw [updN_porder, u6, d6, updN_porder]
      exact hpord
    show replaceFirst (updN _ newH _).porder oldH newH = _
    rw [updN_porder]
    rw [(replace_fix_inputs_comps _ _ _).2.2.2.1]
    rw [(replace_strip_output_comps _ _ _).2.2.1]
    rw [updN_porder, u6, d6, updN_porder]
  · show (replace_erase_old oldH od.descId _).outputs = _
    unfold replace_erase_old
    show (replace_fix_porder oldH newH _).outputs = _
    rw [(replace_fix_porder_comps _ _ _).2.2.2.1]
    rw [updN_outputs]
    rw [(replace_fix_inputs_comps _ _ _).2.2.1]
    rw [(replace_strip_output_comps _ _ _).2.2.2.2]
    rw [updN_outputs, u5, d5, updN_outputs]
  · show (replace_erase_old oldH od.descId _).optimizedOut = _
    unfold replace_erase_old
    show (replace_fix_porder oldH newH _).optimizedOut = _
    rw [(replace_fix_porder_comps _ _ _).2.2.2.2]
    rw [updN_optimizedOut]
    rw [(replace_fix_inputs_comps _ _ _).2.2.2.2]
    rw [(replace_strip_output_comps _ _ _).2.2.2.1]
    rw [updN_optimizedOut, u7, d7, updN_optimizedOut]

/-- C6: replace(old, new) requires new to be detached — when new has any
users or dependencies the call fails fatally and the program is returned
untouched; on success new takes over old's dependencies, users, layout
validity and flag state, inherits old's id, takes old's slot in the
processing order, old is removed from the id-map (and destroyed), and new
is an output exactly when old was one. -/
theorem replace_spec (s : PState) (oldH newH : Nat) (od nn : NodeData)
    (hold : getN s oldH = some od) (hnew : getN s newH = some nn)
    (hne : oldH ≠ newH)
    (hmapo : lookupKV s.idmap od.descId = some oldH)
    (hmapn : lookupKV s.idmap nn.descId = some newH)
    (hdnodup : od.deps.Nodup)
    (hdmem : ∀ d ∈ od.deps, d ≠ oldH ∧ d ≠ newH)
    (humem : ∀ u ∈ od.users, u ≠ oldH ∧ u ≠ newH)
    (hpord : oldH ∈ s.porder)
    (hnout : nn.output = false) :
    ((¬ (nn.deps = [] ∧ nn.users = [])) → ∃ e, replace s oldH newH = (s, some e)) ∧
    (nn.deps = [] → nn.users = [] →
      ∃ s', replace s oldH newH = (s', none) ∧
        getN s' newH = some {
          descId := od.descId, deps := od.deps, users := od.users,
          output := od.output, constant := od.constant, dataFlow := od.dataFlow,
          userMark := od.userMark, validLayout := od.validLayout,
          layoutTag := od.layoutTag, memDeps := nn.memDeps } ∧
        getN s' oldH = none ∧
        lookupKV s'.idmap od.descId = some newH ∧
        s'.porder = replaceFirst s.porder oldH newH ∧
        (od.output = true → s'.outputs = s.outputs.filter (fun x => x ≠ oldH) ++ [newH]) ∧
        (od.output = false → s'.outputs = s.outputs)) := by
  constructor
  · intro hbad
    refine ⟨"Node which is about to replace other node should be detached", ?_⟩
    have hcase : nn.deps.isEmpty = false ∨ nn.users.isEmpty = false := by
      rcases not_and_or.mp hbad with h | h
      · left
        cases hd2 : nn.deps with
        | nil => exact absurd hd2 h
        | cons a l => rfl
      · right
        cases hd2 : nn.users with
        | nil => exact absurd hd2 h
        | cons a l => rfl
    rcases hcase with h | h
    · simp [replace, hold, hnew, h]
    · simp [replace, hold, hnew, h]
  · intro hdet1 hdet2
    have hidne : od.descId ≠ nn.descId := by
      intro hc
      rw [hc, hmapn] at hmapo
      exact hne (Option.some.inj hmapo).symm
    obtain ⟨p1, p2, p3, p4, p5, p6⟩ := replace_pre_spec s oldH newH od nn hold hnew hne
      hdnodup hdmem humem hpord
    have hfree : lookupKV (replace_pre s oldH newH od).idmap od.descId = none := by
      rw [p3]
      exact lookupKV_eraseKV_self _ _
    have hbind : lookupKV (replace_pre s oldH newH od).idmap
        ({ nn with
           deps := nn.deps ++ od.deps, users := nn.users ++ od.users,
           constant := od.constant, dataFlow := od.dataFlow, userMark := od.userMark,
           validLayout := od.validLayout, layoutTag := od.layoutTag } : NodeData).descId =
        some newH := by
      show lookupKV (replace_pre s oldH newH od).idmap nn.descId = some newH
      rw [p3, lookupKV_eraseKV_ne _ _ _ hidne]
      exact hmapn
    have hrn := rename_success (replace_pre s oldH newH od) newH
      { nn with
        deps := nn.deps ++ od.deps, users := nn.users ++ od.users,
        constant := od.constant, dataFlow := od.dataFlow, userMark := od.userMark,
        validLayout := od.validLayout, layoutTag := od.layoutTag }
      od.descId newH p1 hfree hnout hbind
    refine ⟨replace_restore_output newH od.output
      (updN { replace_pre s oldH newH od with
          idmap := eraseKV ((replace_pre s oldH newH od).idmap ++ [(od.descId, newH)])
            ({ nn with
               deps := nn.deps ++ od.deps, users := nn.users ++ od.users,
               constant := od.constant, dataFlow := od.dataFlow, userMark := od.userMark,
               validLayout := od.validLayout, layoutTag := od.layoutTag } : NodeData).descId }
        newH (fun n => { n with descId := od.descId })), ?heq, ?ha, ?hb, ?hc, ?hd, ?he, ?hf⟩
    case heq =>
      show replace s oldH newH = (_, none)
      simp only [replace, hold, hnew, hdet1, hdet2, List.isEmpty_nil, hnout]
      simp only [not_true_eq_false, decide_False, Bool.or_self, Bool.false_eq_true,
        if_false, Bool.false_eq_true]
      rw [hrn]
    case ha =>
      have hS12pre : getN (updN { replace_pre s oldH newH od with
            idmap := eraseKV ((replace_pre s oldH newH od).idmap ++ [(od.descId, newH)])
              ({ nn with
                 deps := nn.deps ++ od.deps, users := nn.users ++ od.users,
                 constant := od.constant, dataFlow := od.dataFlow, userMark := od.userMark,
                 validLayout := od.validLayout, layoutTag := od.layoutTag } : NodeData).descId }
          newH (fun n => { n with descId := od.descId })) newH =
          some { nn with
            descId := od.descId,
            deps := nn.deps ++ od.deps, users := nn.users ++ od.users,
            constant := od.constant, dataFlow := od.dataFlow, userMark := od.userMark,
            validLayout := od.validLayout, layoutTag := od.layoutTag } := by
        rw [getN_updN_self]
        show ((getN (replace_pre s oldH newH od) newH).map _) = _
        rw [p1]
        rfl
      rw [replace_restore_output_getN_self newH od.output _ _ hS12pre]
      cases houtput : od.output with
      | true => simp [hdet1, hdet2]
      | false =>
        simp [hdet1, hdet2]
        rw [← hnout]
    case hb =>
      rw [replace_restore_output_getN_ne newH od.output _ oldH hne]
      rw [getN_updN_ne _ newH oldH _ (Ne.symm hne)]
      exact p2
    case hc =>
      rw [(replace_restore_output_comps newH od.output _).1]
      show lookupKV (eraseKV ((replace_pre s oldH newH od).idmap ++ [(od.descId, newH)]) _)
        od.descId = some newH
      rw [lookupKV_eraseKV_ne _ _ _ (Ne.symm hidne)]
      rw [lookupKV_append]
      rw [hfree]
      simp [lookupKV]
    case hd =>
      rw [(replace_restore_output_comps newH od.output _).2.2.1]
      show (replace_pre s oldH newH od).porder = _
      exact p4
    case he =>
      intro houtput
      rw [(replace_restore_output_comps newH od.output _).2.2.2.2]
      show (if od.output then ((replace_pre s oldH newH od)).outputs ++ [newH]
        else ((replace_pre s oldH newH od)).outputs) = _
      rw [houtput, if_pos rfl, p5, if_pos houtput]
    case hf =>
      intro houtput
      rw [(replace_restore_output_comps newH od.output _).2.2.2.2]
      show (if od.output then ((replace_pre s oldH newH od)).outputs ++ [newH]
        else ((replace_pre s oldH newH od)).outputs) = _
      rw [houtput, if_neg (by simp), p5, if_neg (by simp [houtput])]

/-- The old node of the replace witness: one dependency, one user, an
output. -/
def replOld : NodeData :=
  { descId := "old", deps := [3], users := [4], output := true, constant := true,
    dataFlow := true, userMark := false, validLayout := true, layoutTag := 7,
    memDeps := [] }

/-- The detached replacement node of the replace witness. -/
def replNew : NodeData :=
  { descId := "new", deps := [], users := [], output := false, constant := false,
    dataFlow := false, userMark := false, validLayout := false, layoutTag := 0,
    memDeps := [] }

/-- The dependency of the old node. -/
def replDep : NodeData :=
  { descId := "d", deps := [], users := [1], output := false, constant := false,
    dataFlow := false, userMark := false, validLayout := false, layoutTag := 0,
    memDeps := [] }

/-- The user of the old node. -/
def replUser : NodeData :=
  { descId := "u", deps := [1], users := [], output := false, constant := false,
    dataFlow := false, userMark := false, validLayout := false, layoutTag := 0,
    memDeps := [] }

/-- The program of the replace witness. -/
def replState : PState :=
  { arena := [(1, replOld), (2, replNew), (3, replDep), (4, replUser)],
    idmap := [("old", 1), ("new", 2), ("d", 3), ("u", 4)],
    inputs := [3], outputs := [1], porder := [3, 1, 4], optimizedOut := [],
    debugBuild := false }

/-- Witness for C6: the detached node 2 takes over the edges, flags, layout,
id, processing-order slot and outputness of node 1, which disappears. -/
theorem replace_spec_witness :
    (replace replState 1 2).2 = none ∧
    getN (replace replState 1 2).1 2 = some {
      descId := "old", deps := [3], users := [4], output := true, constant := true,
      dataFlow := true, userMark := false, validLayout := true, layoutTag := 7,
      memDeps := [] } ∧
    getN (replace replState 1 2).1 1 = none ∧
    lookupKV (replace replState 1 2).1.idmap "old" = some 2 ∧
    (replace replState 1 2).1.porder = [3, 2, 4] ∧
    (replace replState 1 2).1.outputs = [2] := by
  obtain ⟨s', heq, ha, hb, hc, hd, he, hf⟩ := (replace_spec replState 1 2 replOld replNew
    rfl rfl (by decide) rfl rfl (by decide) (by decide) (by decide) (by decide) rfl).2
    rfl rfl
  rw [heq]
  refine ⟨rfl, ha, hb, hc, ?_, ?_⟩
  · rw [hd]
    decide
  · rw [he rfl]
    decide

end GpuProg
